import Mathlib

/-!
# Kubernetes pod discovery: `PodAddrs` and `podPort`

A shallow embedding of `provider/k8s/k8s_discover.go`.

Conventions of the embedding.

* A Go `string` is a Lean `String`.  The only byte-level code the program reaches is
  `strconv.ParseInt` / `strconv.ParseBool`; they are run on the code points of the string.
  Every byte those functions compare against is ASCII and every byte of a multi-byte UTF-8
  sequence is `≥ 0x80`, so the verdict on code points and on bytes is the same.
* A Go pointer to a message (`*PodStatus`, `*PodSpec`, `*ObjectMeta`) and a pointer to a
  scalar (`*string`, `*int32`) is an `Option`; `none` is the nil pointer.  The generated
  getters (`GetPhase`, `GetName`, ...) are nil-safe and return the zero value on nil.
  Reading a field directly through a nil pointer is a run-time fault.
* The elements of repeated fields (`Items`, `Conditions`, `Containers`, `Ports`) are
  non-nil messages.
* `int32` values are integers; `int32 v` is the Go conversion (wrap around modulo `2^32`).
* A Go `map[string]string` is an association list read with `GoMap.index`; the nil map and
  the empty map are both `[]` for reading, and a field that may hold a nil map is an
  `Option`.
* The `*log.Logger` is passed as state: the list of records written so far.
* `strconv` is the Go standard library (Go 1.13 and later): with base 0, `ParseInt` accepts
  the markers `0b`, `0o`, `0x`, reads another leading `0` as octal, and allows underscores.
-/

/-! ## The part of `strconv` the program calls -/

namespace strconv

/-- The error kinds carried by a `*strconv.NumError`. -/
inductive NumError where
  | ErrSyntaxKind
  | ErrRangeKind
  | ErrBaseKind
  | ErrBitSizeKind
  deriving DecidableEq, Repr

/-- Go `strconv.ParseBool`: the twelve accepted literals, a syntax error otherwise. -/
def ParseBool (str : String) : Bool × Option NumError :=
  if str = "1" ∨ str = "t" ∨ str = "T" ∨ str = "TRUE" ∨ str = "true" ∨ str = "True" then
    (true, none)
  else if str = "0" ∨ str = "f" ∨ str = "F" ∨ str = "FALSE" ∨ str = "false" ∨ str = "False" then
    (false, none)
  else
    (false, some .ErrSyntaxKind)

/-- Go `lower(c) = c | ('x' - 'X')`. -/
def lower (c : Nat) : Nat := c ||| 32

/-- Go `underscoreOK`, the scan of the number proper; `saw` is the last class of character
seen: `'0'` (48) for a digit or base marker, `'_'` (95), `'!'` (33) for anything else,
`'^'` (94) at the start. -/
def underscoreScan (hex : Bool) : List Nat → Nat → Bool
  | [], saw => saw ≠ 95
  | c :: cs, saw =>
    if (48 ≤ c ∧ c ≤ 57) ∨ (hex ∧ 97 ≤ lower c ∧ lower c ≤ 102) then
      underscoreScan hex cs 48
    else if c = 95 then
      if saw ≠ 48 then false else underscoreScan hex cs 95
    else if saw = 95 then false
    else underscoreScan hex cs 33

/-- Go `underscoreOK`: underscores only between digits or between the base marker and a
digit. -/
def underscoreOK (s : List Nat) : Bool :=
  let s := if s.length ≥ 1 ∧ (s.head? = some 45 ∨ s.head? = some 43) then s.drop 1 else s
  if s.length ≥ 2 ∧ s.head? = some 48 ∧
      (lower (s.getD 1 0) = 98 ∨ lower (s.getD 1 0) = 111 ∨ lower (s.getD 1 0) = 120) then
    underscoreScan (lower (s.getD 1 0) = 120) (s.drop 2) 48
  else underscoreScan false s 94

/-- The digit loop of Go `ParseUint` over the remaining bytes, with the running value `n`
(a `uint64`) and the `underscores` flag.  Returns the pair `(value, err)` Go returns at an
early exit, or the final `n` and flag. -/
def parseUintLoop (base : Nat) (base0 : Bool) (cutoff maxVal : Nat) :
    List Nat → Nat → Bool → Except (Nat × NumError) (Nat × Bool)
  | [], n, underscores => .ok (n, underscores)
  | c :: cs, n, underscores =>
    if c = 95 ∧ base0 then
      parseUintLoop base base0 cutoff maxVal cs n true
    else
      let digit : Option Nat :=
        if 48 ≤ c ∧ c ≤ 57 then some (c - 48)
        else if 97 ≤ lower c ∧ lower c ≤ 122 then some (lower c - 97 + 10)
        else none
      match digit with
      | none => .error (0, .ErrSyntaxKind)
      | some d =>
        if d ≥ base then .error (0, .ErrSyntaxKind)
        else if n ≥ cutoff then .error (maxVal, .ErrRangeKind)
        else
          let n0 := (n * base) % 2 ^ 64
          let n1 := (n0 + d) % 2 ^ 64
          if n1 < n0 ∨ n1 > maxVal then .error (maxVal, .ErrRangeKind)
          else parseUintLoop base base0 cutoff maxVal cs n1 underscores

/-- The `switch` of Go `ParseUint` on `base`: the base of the digits and the bytes left
after the base marker, or `none` for an invalid base.  With base 0 a leading `0b`, `0o`, `0x`
(followed by at least one more byte) selects 2, 8, 16, another leading `0` selects 8, and
anything else is decimal. -/
def chooseBase (s0 : List Nat) (base : Nat) : Option (Nat × List Nat) :=
  if 2 ≤ base ∧ base ≤ 36 then some (base, s0)
  else if base = 0 then
    if s0.head? = some 48 then
      if s0.length ≥ 3 ∧ lower (s0.getD 1 0) = 98 then some (2, s0.drop 2)
      else if s0.length ≥ 3 ∧ lower (s0.getD 1 0) = 111 then some (8, s0.drop 2)
      else if s0.length ≥ 3 ∧ lower (s0.getD 1 0) = 120 then some (16, s0.drop 2)
      else some (8, s0.drop 1)
    else some (10, s0)
  else none

/-- Go `strconv.ParseUint(s, base, bitSize)` on the bytes of `s` (`IntSize` is 64). -/
def ParseUint (s0 : List Nat) (base : Nat) (bitSize : Nat) : Nat × Option NumError :=
  if s0 = [] then (0, some .ErrSyntaxKind)
  else
    let base0 : Bool := base = 0
    match chooseBase s0 base with
    | none => (0, some .ErrBaseKind)
    | some (b, s) =>
      if bitSize > 64 then (0, some .ErrBitSizeKind)
      else
        let bitSize := if bitSize = 0 then 64 else bitSize
        let cutoff := (2 ^ 64 - 1) / b + 1
        let maxVal := 2 ^ bitSize - 1
        match parseUintLoop b base0 cutoff maxVal s 0 false with
        | .error (v, e) => (v, some e)
        | .ok (n, underscores) =>
          if underscores ∧ ¬ underscoreOK s0 then (0, some .ErrSyntaxKind)
          else (n, none)

/-- Go `strconv.ParseInt(s, base, bitSize)` on the bytes of `s`. -/
def ParseIntBytes (s0 : List Nat) (base : Nat) (bitSize : Nat) : Int × Option NumError :=
  if s0 = [] then (0, some .ErrSyntaxKind)
  else
    let neg : Bool := s0.head? = some 45
    let s : List Nat := if s0.head? = some 43 ∨ s0.head? = some 45 then s0.tail else s0
    let r := ParseUint s base bitSize
    if r.2.isSome ∧ r.2 ≠ some .ErrRangeKind then (0, r.2)
    else
      let bitSize := if bitSize = 0 then 64 else bitSize
      let cutoff := 2 ^ (bitSize - 1)
      if ¬ neg ∧ r.1 ≥ cutoff then ((cutoff : Int) - 1, some .ErrRangeKind)
      else if neg ∧ r.1 > cutoff then (-(cutoff : Int), some .ErrRangeKind)
      else if neg then (-(r.1 : Int), none)
      else ((r.1 : Int), none)

/-- Go `strconv.ParseInt(s, base, bitSize)`. -/
def ParseInt (s : String) (base : Nat) (bitSize : Nat) : Int × Option NumError :=
  ParseIntBytes (s.data.map Char.toNat) base bitSize

/-- The decimal digits of `u`, most significant first, as Go `formatBits` writes them for
base 10 (`fuel` bounds the number of digits). -/
def formatDigits : Nat → Nat → List Char → List Char
  | 0, _, acc => acc
  | fuel + 1, u, acc =>
    if u ≥ 10 then formatDigits fuel (u / 10) (Char.ofNat (48 + u % 10) :: acc)
    else Char.ofNat (48 + u) :: acc

/-- Go `strconv.FormatInt(i, 10)`, the rendering of the `%d` verb. -/
def FormatInt (i : Int) : String :=
  if i < 0 then ⟨'-' :: formatDigits (i.natAbs + 1) i.natAbs []⟩
  else ⟨formatDigits (i.natAbs + 1) i.natAbs []⟩

/-! ### Integer literals, for the statements about `ParseInt` -/

/-- The value of a byte as a digit, as the digit loop of `ParseUint` reads it: `0`-`9`, then
the letters of either case from 10 on. -/
def digitOf (c : Nat) : Option Nat :=
  if 48 ≤ c ∧ c ≤ 57 then some (c - 48)
  else if 97 ≤ lower c ∧ lower c ≤ 122 then some (lower c - 97 + 10)
  else none

/-- The byte is a digit of the base `b`. -/
def IsDigit (b : Nat) (c : Nat) : Prop := ∃ d, digitOf c = some d ∧ d < b

instance (b c : Nat) : Decidable (IsDigit b c) :=
  match h : digitOf c with
  | some d =>
    if hd : d < b then isTrue ⟨d, h, hd⟩
    else isFalse (by
      rintro ⟨d', h', hd'⟩
      rw [h] at h'
      cases h'
      exact hd hd')
  | none => isFalse (by
      rintro ⟨d', h', _⟩
      rw [h] at h'
      cases h')

/-- The number a list of digits denotes in base `b`, read from the running value `n`. -/
def valueFrom (b : Nat) (n : Nat) (cs : List Nat) : Nat :=
  cs.foldl (fun a c => a * b + (digitOf c).getD 0) n

/-- The number a list of digits denotes in base `b`. -/
def valueOf (b : Nat) (cs : List Nat) : Nat := valueFrom b 0 cs

end strconv

/-! ## The Kubernetes messages the program reads -/

namespace k8s

/-- A Go `map[string]string`. -/
abbrev GoMap := List (String × String)

/-- Go `m[key]`: the value stored under `key`, the empty string when there is none. -/
def GoMap.index (m : GoMap) (key : String) : String :=
  (m.lookup key).getD ""

/-- The Go conversion `int32(v)` of an `int64`. -/
def int32 (v : Int) : Int := (v + 2 ^ 31) % 2 ^ 32 - 2 ^ 31

/-- Message `corev1.PodCondition`. -/
structure PodCondition where
  Type_ : Option String := none
  Status : Option String := none
  deriving DecidableEq, Repr

/-- Message `corev1.ContainerPort`. -/
structure ContainerPort where
  Name : Option String := none
  HostPort : Option Int := none
  ContainerPort_ : Option Int := none
  deriving DecidableEq, Repr

/-- Message `corev1.Container`. -/
structure Container where
  Ports : List ContainerPort := []
  deriving DecidableEq, Repr

/-- Message `corev1.PodSpec`. -/
structure PodSpec where
  Containers : List Container := []
  deriving DecidableEq, Repr

/-- Message `corev1.PodStatus`. -/
structure PodStatus where
  Phase : Option String := none
  Conditions : List PodCondition := []
  HostIP : Option String := none
  PodIP : Option String := none
  deriving DecidableEq, Repr

/-- Message `metav1.ObjectMeta`. -/
structure ObjectMeta where
  Name : Option String := none
  Annotations : Option GoMap := none
  deriving DecidableEq, Repr

/-- Message `corev1.Pod`. -/
structure Pod where
  Metadata : Option ObjectMeta := none
  Spec : Option PodSpec := none
  Status : Option PodStatus := none
  deriving DecidableEq, Repr

/-- Message `corev1.PodList`. -/
structure PodList where
  Items : List Pod := []
  deriving DecidableEq, Repr

/-- Getter `(*PodCondition).GetType`. -/
def PodCondition.GetType (c : PodCondition) : String := c.Type_.getD ""

/-- Getter `(*PodCondition).GetStatus`. -/
def PodCondition.GetStatus (c : PodCondition) : String := c.Status.getD ""

/-- Getter `(*ContainerPort).GetName`. -/
def ContainerPort.GetName (p : ContainerPort) : String := p.Name.getD ""

/-- Getter `(*ContainerPort).GetHostPort`. -/
def ContainerPort.GetHostPort (p : ContainerPort) : Int := p.HostPort.getD 0

/-- Getter `(*ContainerPort).GetContainerPort`. -/
def ContainerPort.GetContainerPort (p : ContainerPort) : Int := p.ContainerPort_.getD 0

/-- Getter `(*PodStatus).GetPhase`, nil-safe. -/
def PodStatus.GetPhase (s : Option PodStatus) : String :=
  match s with
  | some st => st.Phase.getD ""
  | none => ""

/-- Getter `(*PodStatus).GetPodIP`, nil-safe. -/
def PodStatus.GetPodIP (s : Option PodStatus) : String :=
  match s with
  | some st => st.PodIP.getD ""
  | none => ""

/-- Getter `(*PodStatus).GetHostIP`, nil-safe. -/
def PodStatus.GetHostIP (s : Option PodStatus) : String :=
  match s with
  | some st => st.HostIP.getD ""
  | none => ""

/-- Getter `(*ObjectMeta).GetName`, nil-safe. -/
def ObjectMeta.GetName (m : Option ObjectMeta) : String :=
  match m with
  | some md => md.Name.getD ""
  | none => ""

/-! ## `PodAddrs` and `podPort` -/

/-- The annotation name of the field that specifies the port name or number to append to
the address. -/
def AnnotationKeyPort : String := "hashicorp.com/consul-auto-join-port"

/-- Method `(*Provider).Help`: the help text of the provider. -/
def Help : String :=
  "Kubernetes (K8S):\n" ++
  "\n" ++
  "    provider:         \"k8s\"\n" ++
  "    kubeconfig:       Path to the kubeconfig file.\n" ++
  "    namespace:        Namespace to search for pods (defaults to \"default\").\n" ++
  "    label_selector:   Label selector value to filter pods.\n" ++
  "    field_selector:   Field selector value to filter pods.\n" ++
  "    host_network:     \"true\" if pod host IP and ports should be used.\n" ++
  "\n" ++
  "    The kubeconfig file value will be searched in the following locations:\n" ++
  "\n" ++
  "     1. Use path from \"kubeconfig\" option if provided.\n" ++
  "     2. Use path from KUBECONFIG environment variable.\n" ++
  "     3. Use default path of $HOME/.kube/config\n" ++
  "\n" ++
  "    By default, the Pod IP is used to join. The \"host_network\" option may\n" ++
  "    be set to use the Host IP. No port is used by default. Pods may set\n" ++
  "    an annotation 'hashicorp/consul-auto-join-port' to a named port or\n" ++
  "    an integer value. If the value matches a named port, that port will\n" ++
  "    be used to join.\n" ++
  "\n" ++
  "    Note that if \"host_network\" is set to true, then only pods that have\n" ++
  "    a HostIP available will be selected. If a port annotation exists, then\n" ++
  "    the port must be exposed via a HostPort as well, otherwise the pod will\n" ++
  "    be ignored.\n"

/-- The outcome of running a piece of Go code: it returns a value, or the run stops with a
nil pointer dereference. -/
inductive Exec (α : Type) where
  | returned (v : α)
  | fault
  deriving DecidableEq, Repr

/-- The records `PodAddrs` writes with `l.Printf`, one constructor per call site, holding
the arguments of the call. -/
inductive LogLine where
  | notRunning (name : String) (phase : String)
  | notReady (name : String)
  | emptyIP (name : String)
  | portError (name : String) (err : strconv.NumError)
  deriving DecidableEq, Repr

/-- The `*log.Logger`, as the records written so far. -/
abbrev Logger := List LogLine

/-- Method `(*log.Logger).Printf`: one more record. -/
def Logger.Printf (l : Logger) (line : LogLine) : Logger := l ++ [line]

/-- The error `PodAddrs` returns: `discover-k8s: host_network must be boolean value`, wrapping
the error of `strconv.ParseBool`. -/
inductive Error where
  | hostNetworkNotBool (err : strconv.NumError)
  deriving DecidableEq, Repr

/-- The inner loop of `podPort` over the ports of one container: the value returned from
inside the loop, or `none` when the loop runs to its end. -/
def podPortPorts ( annotation : String) (host : Bool) : List ContainerPort → Option Int
  | [] => none
  | portDef :: rest =>
    if portDef.GetName = annotation then
      if host then
        if portDef.GetHostPort = 0 then podPortPorts annotation host rest
        else some portDef.GetHostPort
      else some portDef.GetContainerPort
    else podPortPorts annotation host rest

/-- The outer loop of `podPort` over the containers. -/
def podPortContainers ( annotation : String) (host : Bool) : List Container → Option Int
  | [] => none
  | container :: rest =>
    match podPortPorts annotation host container.Ports with
    | some port => some port
    | none => podPortContainers annotation host rest

/-- Function `podPort`: the port for the address of `pod` for a non-empty annotation, as the
pair `(port, err)`.  `pod.Spec.Containers` is read through the pointer `pod.Spec`. -/
def podPort (pod : Pod) ( annotation : String) (host : Bool) :
    Exec (Int × Option strconv.NumError) :=
  match pod.Spec with
  | none => .fault
  | some spec =>
    match podPortContainers annotation host spec.Containers with
    | some port => .returned (port, none)
    | none =>
      let (v, err) := strconv.ParseInt annotation 0 32
      .returned (int32 v, err)

/-- What one iteration of `PodLoop` does: write a record and `continue`, append an address,
or stop with a fault. -/
inductive Iteration where
  | skip (line : LogLine)
  | emit (addr : String)
  | fault
  deriving DecidableEq, Repr

/-- The body of `PodLoop` in `PodAddrs`, for one pod. -/
def PodLoopBody (hostNetwork : Bool) (pod : Pod) : Iteration :=
  let v := PodStatus.GetPhase pod.Status
  if v ≠ "Running" then
    .skip (.notRunning (ObjectMeta.GetName pod.Metadata) v)
  else
    match pod.Status with
    | none => .fault
    | some status =>
      if status.Conditions.any
          (fun condition => condition.GetType = "Ready" ∧ condition.GetStatus ≠ "True") then
        .skip (.notReady (ObjectMeta.GetName pod.Metadata))
      else
        let addr := if hostNetwork then PodStatus.GetHostIP pod.Status
          else PodStatus.GetPodIP pod.Status
        if addr = "" then
          .skip (.emptyIP (ObjectMeta.GetName pod.Metadata))
        else
          match pod.Metadata with
          | none => .emit addr
          | some md =>
            match md.Annotations with
            | none => .emit addr
            | some annotations =>
              let v := GoMap.index annotations AnnotationKeyPort
              if v ≠ "" then
                match podPort pod v hostNetwork with
                | .fault => .fault
                | .returned (port, err) =>
                  match err with
                  | some e => .skip (.portError (ObjectMeta.GetName pod.Metadata) e)
                  | none => .emit (addr ++ ":" ++ strconv.FormatInt port)
              else .emit addr

/-- The loop `PodLoop` of `PodAddrs` over `pods.Items`, from the addresses collected and the
records written so far. -/
def PodLoop (hostNetwork : Bool) : List Pod → List String → Logger → Exec (List String) × Logger
  | [], addrs, l => (.returned addrs, l)
  | pod :: rest, addrs, l =>
    match PodLoopBody hostNetwork pod with
    | .skip line => PodLoop hostNetwork rest addrs (l.Printf line)
    | .emit addr => PodLoop hostNetwork rest (addrs ++ [addr]) l
    | .fault => (.fault, l)

/-- Function `PodAddrs`: the pair `(addrs, err)` it returns, or a fault, and the logger
after the call. -/
def PodAddrs (pods : PodList) (args : GoMap) (l : Logger) :
    Exec (List String × Option Error) × Logger :=
  let v := args.index "host_network"
  let (hostNetwork, err) : Bool × Option strconv.NumError :=
    if v ≠ "" then strconv.ParseBool v else (false, none)
  match err with
  | some e => (.returned ([], some (.hostNetworkNotBool e)), l)
  | none =>
    match PodLoop hostNetwork pods.Items [] l with
    | (.returned addrs, l) => (.returned (addrs, none), l)
    | (.fault, l) => (.fault, l)

end k8s


/-! ## The vocabulary of the specification -/

namespace k8s

/-- The options map has an empty or valid `host_network` value, and it selects the mode
`hostNetwork` (false when the value is empty). -/
def HostNetworkMode (args : GoMap) (hostNetwork : Bool) : Prop :=
  (args.index "host_network" = "" ∧ hostNetwork = false) ∨
  (args.index "host_network" ≠ "" ∧
    strconv.ParseBool (args.index "host_network") = (hostNetwork, none))

/-- The IP field the mode selects: `hostIP` under host network, `podIP` otherwise. -/
def selectedIP (hostNetwork : Bool) (pod : Pod) : String :=
  if hostNetwork then PodStatus.GetHostIP pod.Status else PodStatus.GetPodIP pod.Status

/-- The value of the port annotation of a pod; empty when the pod has no metadata, no
annotations, no entry for the key, or an empty value for it. -/
def annotatedPort (pod : Pod) : String :=
  match pod.Metadata with
  | none => ""
  | some md =>
    match md.Annotations with
    | none => ""
    | some annotations => annotations.index AnnotationKeyPort

/-- The conditions of a pod; none when the status is absent. -/
def conditionsOf (pod : Pod) : List PodCondition :=
  match pod.Status with
  | none => []
  | some status => status.Conditions

/-- Phase gate: the phase is exactly "Running". -/
def PhaseGate (pod : Pod) : Prop := PodStatus.GetPhase pod.Status = "Running"

/-- Readiness gate: no condition of type "Ready" has a status other than "True". -/
def ReadinessGate (pod : Pod) : Prop :=
  ∀ c ∈ conditionsOf pod, c.GetType = "Ready" → c.GetStatus = "True"

/-- IP gate: the selected IP is not empty. -/
def IPGate (hostNetwork : Bool) (pod : Pod) : Prop := selectedIP hostNetwork pod ≠ ""

/-- Port gate: there is no port annotation, or `podPort` resolves it without error. -/
def PortGate (hostNetwork : Bool) (pod : Pod) : Prop :=
  annotatedPort pod = "" ∨
    ∃ port, podPort pod (annotatedPort pod) hostNetwork = .returned (port, none)

/-- The pod passes all four gates. -/
def PassesGates (hostNetwork : Bool) (pod : Pod) : Prop :=
  PhaseGate pod ∧ ReadinessGate pod ∧ IPGate hostNetwork pod ∧ PortGate hostNetwork pod

/-- The pod passes the first three gates and carries a port annotation, but has no spec:
`podPort` is called and reads `pod.Spec.Containers` through a nil pointer. -/
def ReadsAbsentSpec (hostNetwork : Bool) (pod : Pod) : Prop :=
  PhaseGate pod ∧ ReadinessGate pod ∧ IPGate hostNetwork pod ∧
    annotatedPort pod ≠ "" ∧ pod.Spec = none

/-- The address of a pod that passes all gates: the selected IP, followed by `:` and the
resolved port when there is a port annotation. -/
def addressOf (hostNetwork : Bool) (pod : Pod) : String :=
  if annotatedPort pod = "" then selectedIP hostNetwork pod
  else
    match podPort pod (annotatedPort pod) hostNetwork with
    | .returned (port, _) => selectedIP hostNetwork pod ++ ":" ++ strconv.FormatInt port
    | .fault => selectedIP hostNetwork pod

/-- The pod is excluded from the output of `PodAddrs`: wherever it stands in the input, the
result is the result for the input without it. -/
def Excluded (args : GoMap) (pod : Pod) : Prop :=
  ∀ (before after : List Pod) (l : Logger),
    (PodAddrs ⟨before ++ pod :: after⟩ args l).1 = (PodAddrs ⟨before ++ after⟩ args l).1

/-- The pod is included in the output of `PodAddrs` with the address `addr`: wherever it
stands in the input, `addr` stands between the addresses of the pods before it and those of
the pods after it. -/
def IncludedAs (args : GoMap) (pod : Pod) (addr : String) : Prop :=
  ∀ (before after : List Pod) (l : Logger) (as bs : List String),
    (PodAddrs ⟨before⟩ args l).1 = .returned (as, none) →
    (PodAddrs ⟨after⟩ args l).1 = .returned (bs, none) →
    (PodAddrs ⟨before ++ pod :: after⟩ args l).1 = .returned (as ++ addr :: bs, none)

/-- The boolean literals `strconv.ParseBool` accepts. -/
def boolLiterals : List String :=
  ["1", "t", "T", "TRUE", "true", "True", "0", "f", "F", "FALSE", "false", "False"]

/-- The ports a pod declares, in declaration order: the containers of its spec in order,
and the ports of each container in order; none when the spec is absent. -/
def declaredPorts (pod : Pod) : List ContainerPort :=
  match pod.Spec with
  | none => []
  | some spec => spec.Containers.flatMap (fun container => container.Ports)

/-- A declared port qualifies for an annotation value: its name is that value and, under
host network, its `hostPort` is not zero. -/
def Qualifies ( annotation : String) (host : Bool) (portDef : ContainerPort) : Prop :=
  portDef.GetName = annotation ∧ (host = true → portDef.GetHostPort ≠ 0)

instance ( annotation : String) (host : Bool) (portDef : ContainerPort) :
    Decidable (Qualifies annotation host portDef) := by
  unfold Qualifies; infer_instance

/-- The value a qualifying port resolves to: `hostPort` under host network, `containerPort`
otherwise. -/
def portValue (host : Bool) (portDef : ContainerPort) : Int :=
  if host then portDef.GetHostPort else portDef.GetContainerPort

instance (pod : Pod) : Decidable (PhaseGate pod) := by
  unfold PhaseGate; infer_instance

instance (pod : Pod) : Decidable (ReadinessGate pod) := by
  unfold ReadinessGate; infer_instance

instance (hostNetwork : Bool) (pod : Pod) : Decidable (IPGate hostNetwork pod) := by
  unfold IPGate; infer_instance

instance (hostNetwork : Bool) (pod : Pod) : Decidable (PortGate hostNetwork pod) :=
  if h : annotatedPort pod = "" then isTrue (Or.inl h)
  else
    match hp : podPort pod (annotatedPort pod) hostNetwork with
    | .returned (port, none) => isTrue (Or.inr ⟨port, hp⟩)
    | .returned (_, some _) => isFalse (by
        rintro (h' | ⟨q, hq⟩)
        · exact h h'
        · rw [hp] at hq; cases hq)
    | .fault => isFalse (by
        rintro (h' | ⟨q, hq⟩)
        · exact h h'
        · rw [hp] at hq; cases hq)

instance (hostNetwork : Bool) (pod : Pod) : Decidable (PassesGates hostNetwork pod) := by
  unfold PassesGates; infer_instance

instance (hostNetwork : Bool) (pod : Pod) : Decidable (ReadsAbsentSpec hostNetwork pod) := by
  unfold ReadsAbsentSpec; infer_instance

/-- The pod a diagnostic record names. -/
def LogLine.name : LogLine → String
  | .notRunning name _ => name
  | .notReady name => name
  | .emptyIP name => name
  | .portError name _ => name

/-- The diagnostic record of a pod that is skipped: "not running" with the phase, "not
ready", "requested IP is empty", or "error retrieving port" with the error of the port
resolution, by the first gate the pod fails; each with the name of the pod. -/
def diagnosticOf (hostNetwork : Bool) (pod : Pod) : LogLine :=
  if ¬ PhaseGate pod then
    .notRunning (ObjectMeta.GetName pod.Metadata) (PodStatus.GetPhase pod.Status)
  else if ¬ ReadinessGate pod then .notReady (ObjectMeta.GetName pod.Metadata)
  else if ¬ IPGate hostNetwork pod then .emptyIP (ObjectMeta.GetName pod.Metadata)
  else
    match podPort pod (annotatedPort pod) hostNetwork with
    | .returned (_, some e) => .portError (ObjectMeta.GetName pod.Metadata) e
    | _ => .portError (ObjectMeta.GetName pod.Metadata) .ErrSyntaxKind

/-- Every port number a pod declares is an `int32`, as the type of the fields has it. -/
def Int32Ports (pod : Pod) : Prop :=
  ∀ p ∈ declaredPorts pod,
    (-2 ^ 31 ≤ p.GetHostPort ∧ p.GetHostPort < 2 ^ 31) ∧
      (-2 ^ 31 ≤ p.GetContainerPort ∧ p.GetContainerPort < 2 ^ 31)

instance (pod : Pod) : Decidable (Int32Ports pod) := by
  unfold Int32Ports; infer_instance

/-- The integer a sign and an unsigned value denote: negated after `-`. -/
def signedValue (sign : List Char) (un : Nat) : Int :=
  if sign = ['-'] then -(un : Int) else (un : Int)

/-- The integer is a signed 32-bit value. -/
def FitsInt32 (v : Int) : Prop := -2 ^ 31 ≤ v ∧ v < 2 ^ 31

instance (v : Int) : Decidable (FitsInt32 v) := by
  unfold FitsInt32; infer_instance

/-! ## Example inputs -/

/-- A pending pod. -/
def pendingPod : Pod :=
  { Status := some { Phase := some "Pending", PodIP := some "2.3.4.5" } }

/-- A running pod whose "Ready" condition is "True". -/
def readyPod : Pod :=
  { Status := some { Phase := some "Running", PodIP := some "ready"
                     Conditions := [{ Type_ := some "Ready", Status := some "True" }] } }

/-- A running pod whose "Ready" condition is "Unknown". -/
def notReadyPod : Pod :=
  { Status := some { Phase := some "Running", PodIP := some "not-ready"
                     Conditions := [{ Type_ := some "Ready", Status := some "Unknown" }] } }

/-- A running pod with a condition of another type only. -/
def scheduledPod : Pod :=
  { Status := some { Phase := some "Running", PodIP := some "scheduled"
                     Conditions := [{ Type_ := some "Scheduled", Status := some "Unknown" }] } }

/-- The pod of the test cases "Simple pods" and "Simple pods host network". -/
def simplePod : Pod :=
  { Status := some { Phase := some "Running", PodIP := some "1.2.3.4",
                     HostIP := some "2.3.4.5" } }

/-- The options of the host-network test cases. -/
def hostNetworkArgs : GoMap := [("host_network", "true")]

/-- The pod of the test case "Port annotation (named)". -/
def namedPortPod : Pod :=
  { Status := some { Phase := some "Running", PodIP := some "1.2.3.4" }
    Spec := some { Containers := [{ Ports :=
      [{ Name := some "my-port", HostPort := some 1234, ContainerPort_ := some 8500 },
       { Name := some "http", HostPort := some 80, ContainerPort_ := some 8080 }] }] }
    Metadata := some { Annotations := some [(AnnotationKeyPort, "my-port")] } }

/-- The pod of the test case "Port annotation (named with host network)". -/
def hostPortPod : Pod :=
  { Status := some { Phase := some "Running", PodIP := some "1.2.3.4",
                     HostIP := some "2.3.4.5" }
    Spec := some { Containers := [{ Ports :=
      [{ Name := some "http", HostPort := some 80, ContainerPort_ := some 8080 }] }] }
    Metadata := some { Annotations := some [(AnnotationKeyPort, "http")] } }

/-- A pod annotated "http" whose only port of that name has `hostPort` 0. -/
def zeroHostPortPod : Pod :=
  { Status := some { Phase := some "Running", PodIP := some "1.2.3.4",
                     HostIP := some "2.3.4.5" }
    Spec := some { Containers := [{ Ports :=
      [{ Name := some "http", HostPort := some 0, ContainerPort_ := some 8080 }] }] }
    Metadata := some { Annotations := some [(AnnotationKeyPort, "http")] } }

/-- A pod with two containers that both declare a port named "web": the first with
`hostPort` 0, the second with `hostPort` 1234. -/
def twoWebPortsPod : Pod :=
  { Status := some { Phase := some "Running", PodIP := some "1.2.3.4",
                     HostIP := some "2.3.4.5" }
    Spec := some { Containers :=
      [{ Ports := [{ Name := some "admin", HostPort := some 99, ContainerPort_ := some 9900 },
                   { Name := some "web", HostPort := some 0, ContainerPort_ := some 8500 }] },
       { Ports := [{ Name := some "web", HostPort := some 1234, ContainerPort_ := some 9000 }] }] }
    Metadata := some { Annotations := some [(AnnotationKeyPort, "web")] } }

/-- A pod annotated "80" whose port named "80" has `hostPort` 0 and `containerPort` 8080. -/
def numericNamePod : Pod :=
  { Status := some { Phase := some "Running", PodIP := some "1.2.3.4",
                     HostIP := some "2.3.4.5" }
    Spec := some { Containers := [{ Ports :=
      [{ Name := some "80", HostPort := some 0, ContainerPort_ := some 8080 }] }] }
    Metadata := some { Annotations := some [(AnnotationKeyPort, "80")] } }

/-- A pod annotated "0" whose port named "0" has `hostPort` 0. -/
def zeroLiteralPod : Pod :=
  { Status := some { Phase := some "Running", PodIP := some "1.2.3.4",
                     HostIP := some "2.3.4.5" }
    Spec := some { Containers := [{ Ports :=
      [{ Name := some "0", HostPort := some 0, ContainerPort_ := some 8080 }] }] }
    Metadata := some { Annotations := some [(AnnotationKeyPort, "0")] } }

/-- The pod of the test cases "Port annotation (direct)" and "Port annotation (direct with
host network)". -/
def directPortPod : Pod :=
  { Status := some { Phase := some "Running", PodIP := some "1.2.3.4",
                     HostIP := some "2.3.4.5" }
    Spec := some { Containers := [{ Ports :=
      [{ Name := some "http", HostPort := some 80, ContainerPort_ := some 8080 }] }] }
    Metadata := some { Annotations := some [(AnnotationKeyPort, "4600")] } }

/-- A Running pod with a `podIP` and the port annotation "4600", and no spec. -/
def specLessPod : Pod :=
  { Status := some { Phase := some "Running", PodIP := some "1.2.3.4" }
    Metadata := some { Name := some "web-0", Annotations := some [(AnnotationKeyPort, "4600")] } }

/-- A pod annotated "http" that declares no port of that name. -/
def unparsablePortPod : Pod :=
  { Status := some { Phase := some "Running", PodIP := some "1.2.3.4" }
    Spec := some { Containers := [{ Ports :=
      [{ Name := some "admin", HostPort := some 99, ContainerPort_ := some 9900 }] }] }
    Metadata := some { Name := some "web-1", Annotations := some [(AnnotationKeyPort, "http")] } }

/-- A pod annotated "2147483648", one more than the largest `int32`. -/
def outOfRangePortPod : Pod :=
  { Status := some { Phase := some "Running", PodIP := some "1.2.3.4" }
    Spec := some {}
    Metadata := some { Annotations := some [(AnnotationKeyPort, "2147483648")] } }

/-- An options map with the keys the adapter consumes next to `host_network`. -/
def fullArgs : GoMap :=
  [("provider", "k8s"), ("kubeconfig", "/etc/kube/config"), ("namespace", "prod"),
   ("label_selector", "app = valid"), ("field_selector", "spec.nodeName=n1"),
   ("host_network", "true"), ("unknown", "x")]

/-- An options map whose `host_network` value is not a boolean literal. -/
def badArgs : GoMap := [("host_network", "yes")]

/-- The pod of the test case "Port annotation (named)", with its annotation under the key the
help text gives. -/
def helpKeyPod : Pod :=
  { Status := some { Phase := some "Running", PodIP := some "1.2.3.4" }
    Spec := some { Containers := [{ Ports :=
      [{ Name := some "my-port", HostPort := some 1234, ContainerPort_ := some 8500 },
       { Name := some "http", HostPort := some 80, ContainerPort_ := some 8080 }] }] }
    Metadata := some { Annotations := some [("hashicorp/consul-auto-join-port", "my-port")] } }

/-- A pod with a spec and no ports, annotated with the given value. -/
def literalPod (value : String) : Pod :=
  { Status := some { Phase := some "Running", PodIP := some "1.2.3.4",
                     HostIP := some "2.3.4.5" }
    Spec := some {}
    Metadata := some { Annotations := some [(AnnotationKeyPort, value)] } }

/-- A pod annotated "neg" whose port of that name has the `containerPort` -5. -/
def negativeNamedPod : Pod :=
  { Status := some { Phase := some "Running", PodIP := some "1.2.3.4" }
    Spec := some { Containers := [{ Ports :=
      [{ Name := some "neg", ContainerPort_ := some (-5) }] }] }
    Metadata := some { Annotations := some [(AnnotationKeyPort, "neg")] } }

/-- A Running pod with a `podIP`, a `hostIP` and the port annotation "4600", and no spec. -/
def specLessHostPod : Pod :=
  { Status := some { Phase := some "Running", PodIP := some "1.2.3.4",
                     HostIP := some "2.3.4.5" }
    Metadata := some { Name := some "web-2", Annotations := some [(AnnotationKeyPort, "4600")] } }

/-- A Running pod with a `podIP` and the port annotation "http", and no spec. -/
def specLessNamedPod : Pod :=
  { Status := some { Phase := some "Running", PodIP := some "1.2.3.4" }
    Metadata := some { Name := some "web-3", Annotations := some [(AnnotationKeyPort, "http")] } }

/-- The pods of the test case "Only pods that are ready". -/
def readyPods : List Pod := [pendingPod, readyPod, notReadyPod, scheduledPod]

end k8s

/-! ## The loop body in terms of the gates -/

namespace k8s

/-- A pod that passes the phase gate has a status. -/
theorem phaseGate_status {pod : Pod} (h : PhaseGate pod) : ∃ status, pod.Status = some status := by
  unfold PhaseGate PodStatus.GetPhase at h
  cases hs : pod.Status with
  | none => rw [hs] at h; simp at h
  | some status => exact ⟨status, rfl⟩

/-- The body of `PodLoop` as a cascade over the gates. -/
theorem PodLoopBody_eq (hostNetwork : Bool) (pod : Pod) :
    PodLoopBody hostNetwork pod =
      if ¬ PhaseGate pod then
        .skip (.notRunning (ObjectMeta.GetName pod.Metadata) (PodStatus.GetPhase pod.Status))
      else if ¬ ReadinessGate pod then .skip (.notReady (ObjectMeta.GetName pod.Metadata))
      else if ¬ IPGate hostNetwork pod then .skip (.emptyIP (ObjectMeta.GetName pod.Metadata))
      else if annotatedPort pod = "" then .emit (selectedIP hostNetwork pod)
      else
        match podPort pod (annotatedPort pod) hostNetwork with
        | .fault => .fault
        | .returned (_, some e) => .skip (.portError (ObjectMeta.GetName pod.Metadata) e)
        | .returned (port, none) =>
          .emit (selectedIP hostNetwork pod ++ ":" ++ strconv.FormatInt port) := by
  by_cases hp : PhaseGate pod
  · obtain ⟨status, hs⟩ := phaseGate_status hp
    have hp' : PodStatus.GetPhase pod.Status = "Running" := hp
    by_cases hr : ReadinessGate pod
    · have hany : status.Conditions.any
          (fun condition => decide (condition.GetType = "Ready" ∧ condition.GetStatus ≠ "True"))
            = false := by
        rw [List.any_eq_false]
        intro c hc
        have := hr c (by simpa [conditionsOf, hs] using hc)
        simp only [decide_eq_true_eq, not_and, not_not]
        exact this
      by_cases hi : IPGate hostNetwork pod
      · have hi' : selectedIP hostNetwork pod ≠ "" := hi
        unfold selectedIP at hi'
        simp only [hp, hr, hi, not_true_eq_false, if_false]
        unfold PodLoopBody annotatedPort selectedIP
        rw [hs] at hp' hi'
        simp only [hs, hp', hany, ne_eq, not_true_eq_false, if_false, Bool.false_eq_true, hi']
        cases hm : pod.Metadata with
        | none => simp
        | some md =>
          cases ha : md.Annotations with
          | none => simp [ha]
          | some annotations =>
            simp only [ha]
            by_cases hv : GoMap.index annotations AnnotationKeyPort = ""
            · simp [hv]
            · simp only [hv, not_false_eq_true, if_true, if_false]
              cases hpp : podPort pod (GoMap.index annotations AnnotationKeyPort) hostNetwork with
              | fault => rfl
              | returned v =>
                obtain ⟨port, err⟩ := v
                cases err <;> rfl
      · have hi' : selectedIP hostNetwork pod = "" := by
          unfold IPGate at hi; simpa using hi
        unfold selectedIP at hi'
        simp only [hp, hr, hi, not_true_eq_false, if_false, not_false_eq_true, if_true]
        unfold PodLoopBody
        rw [hs] at hp' hi'
        simp only [hs, hp', hany, ne_eq, not_true_eq_false, if_false, Bool.false_eq_true, hi',
          if_true]
    · have hany : status.Conditions.any
          (fun condition => decide (condition.GetType = "Ready" ∧ condition.GetStatus ≠ "True"))
            = true := by
        rw [List.any_eq_true]
        unfold ReadinessGate at hr
        push_neg at hr
        obtain ⟨c, hc, h1, h2⟩ := hr
        exact ⟨c, by simpa [conditionsOf, hs] using hc, by simp [h1, h2]⟩
      simp only [hp, hr, not_true_eq_false, if_false, not_false_eq_true, if_true]
      unfold PodLoopBody
      rw [hs] at hp'
      simp only [hs, hp', hany, ne_eq, not_true_eq_false, if_false, if_true]
  · have hp' : PodStatus.GetPhase pod.Status ≠ "Running" := hp
    simp only [hp, not_false_eq_true, if_true]
    unfold PodLoopBody
    simp only [hp', ne_eq, not_false_eq_true, if_true]

/-- Function `podPort` faults exactly on a pod without a spec. -/
theorem podPort_fault_iff (pod : Pod) ( annotation : String) (host : Bool) :
    podPort pod annotation host = .fault ↔ pod.Spec = none := by
  unfold podPort
  cases hs : pod.Spec with
  | none => simp
  | some spec =>
    simp only [reduceCtorEq, iff_false]
    cases podPortContainers annotation host spec.Containers <;> simp

/-- The body of the loop faults exactly when the pod reaches `podPort` without a spec. -/
theorem PodLoopBody_fault_iff (hostNetwork : Bool) (pod : Pod) :
    PodLoopBody hostNetwork pod = .fault ↔ ReadsAbsentSpec hostNetwork pod := by
  rw [PodLoopBody_eq]
  unfold ReadsAbsentSpec
  by_cases hp : PhaseGate pod <;> by_cases hr : ReadinessGate pod <;>
    by_cases hi : IPGate hostNetwork pod <;> by_cases ha : annotatedPort pod = "" <;>
    simp only [hp, hr, hi, ha, not_true_eq_false, not_false_eq_true, if_true, if_false,
      reduceCtorEq, false_and, and_false, true_and, ne_eq]
  rw [← podPort_fault_iff pod (annotatedPort pod) hostNetwork]
  cases hpp : podPort pod (annotatedPort pod) hostNetwork with
  | fault => simp
  | returned v =>
    obtain ⟨port, err⟩ := v
    cases err <;> simp

/-- The body of the loop appends an address exactly for a pod that passes all gates, and
the address is `addressOf`. -/
theorem PodLoopBody_emit_iff (hostNetwork : Bool) (pod : Pod) (addr : String) :
    PodLoopBody hostNetwork pod = .emit addr ↔
      PassesGates hostNetwork pod ∧ addr = addressOf hostNetwork pod := by
  rw [PodLoopBody_eq]
  unfold PassesGates PortGate addressOf
  by_cases hp : PhaseGate pod <;> by_cases hr : ReadinessGate pod <;>
    by_cases hi : IPGate hostNetwork pod <;> by_cases ha : annotatedPort pod = "" <;>
    simp only [hp, hr, hi, ha, not_true_eq_false, not_false_eq_true, if_true, if_false,
      reduceCtorEq, false_and, and_false, true_and, ne_eq, false_or, true_or,
      Iteration.emit.injEq]
  · exact eq_comm
  · cases hpp : podPort pod (annotatedPort pod) hostNetwork with
    | fault => simp
    | returned v =>
      obtain ⟨port, err⟩ := v
      cases err with
      | none => simp [eq_comm]
      | some e => simp

/-- The first component of `PodLoop`: a fault when some pod reads an absent spec, otherwise
the addresses of the pods that pass all gates, appended in input order. -/
theorem PodLoop_fst (hostNetwork : Bool) (items : List Pod) (addrs : List String) (l : Logger) :
    (PodLoop hostNetwork items addrs l).1 =
      if ∃ pod ∈ items, ReadsAbsentSpec hostNetwork pod then .fault
      else .returned
        (addrs ++ (items.filter (fun pod => PassesGates hostNetwork pod)).map
          (addressOf hostNetwork)) := by
  induction items generalizing addrs l with
  | nil => simp [PodLoop]
  | cons pod rest ih =>
    unfold PodLoop
    cases hb : PodLoopBody hostNetwork pod with
    | skip line =>
      have hf : ¬ ReadsAbsentSpec hostNetwork pod := by
        rw [← PodLoopBody_fault_iff, hb]; simp
      have hg : ¬ PassesGates hostNetwork pod := by
        intro hg
        have := (PodLoopBody_emit_iff hostNetwork pod _).2 ⟨hg, rfl⟩
        rw [hb] at this; cases this
      simp only [ih, List.mem_cons, exists_eq_or_imp, hf, false_or, List.filter_cons, hg,
        decide_False, Bool.false_eq_true, if_false]
    | emit addr =>
      have hf : ¬ ReadsAbsentSpec hostNetwork pod := by
        rw [← PodLoopBody_fault_iff, hb]; simp
      obtain ⟨hg, ha⟩ := (PodLoopBody_emit_iff hostNetwork pod addr).1 hb
      simp only [ih, List.mem_cons, exists_eq_or_imp, hf, false_or, List.filter_cons, hg,
        decide_True, if_true, List.map_cons, ← ha, List.append_assoc, List.singleton_append]
    | fault =>
      have hf : ReadsAbsentSpec hostNetwork pod := by
        rw [← PodLoopBody_fault_iff, hb]
      simp [hf]

/-- Under a valid `host_network` value `PodAddrs` is the loop run in the selected mode. -/
theorem PodAddrs_of_mode {args : GoMap} {hostNetwork : Bool}
    (hm : HostNetworkMode args hostNetwork) (pods : PodList) (l : Logger) :
    PodAddrs pods args l =
      match PodLoop hostNetwork pods.Items [] l with
      | (.returned addrs, l) => (.returned (addrs, none), l)
      | (.fault, l) => (.fault, l) := by
  unfold PodAddrs
  rcases hm with ⟨h1, h2⟩ | ⟨h1, h2⟩
  · simp [h1, h2]
  · simp [h1, h2]

/-! ## Exclusion and inclusion of a single pod -/

/-- The result of `PodAddrs` under a valid `host_network` value. -/
theorem PodAddrs_fst {args : GoMap} {hostNetwork : Bool}
    (hm : HostNetworkMode args hostNetwork) (items : List Pod) (l : Logger) :
    (PodAddrs ⟨items⟩ args l).1 =
      if ∃ pod ∈ items, ReadsAbsentSpec hostNetwork pod then .fault
      else .returned
        ((items.filter (fun pod => PassesGates hostNetwork pod)).map (addressOf hostNetwork),
          none) := by
  rw [PodAddrs_of_mode hm]
  have h := PodLoop_fst hostNetwork items [] l
  cases hl : PodLoop hostNetwork items [] l with
  | mk r l' =>
    rw [hl] at h
    simp only at h
    cases r with
    | fault =>
      simp only
      by_cases hex : ∃ pod ∈ items, ReadsAbsentSpec hostNetwork pod
      · simp [hex]
      · simp [hex] at h
    | returned addrs =>
      simp only
      by_cases hex : ∃ pod ∈ items, ReadsAbsentSpec hostNetwork pod
      · simp [hex] at h
      · simp only [hex, if_false, List.nil_append, Exec.returned.injEq] at h
        simp [hex, h]

/-- A pod whose iteration writes a record and continues is excluded. -/
theorem excluded_of_skip {args : GoMap} {hostNetwork : Bool}
    (hm : HostNetworkMode args hostNetwork) {pod : Pod} {line : LogLine}
    (hb : PodLoopBody hostNetwork pod = .skip line) : Excluded args pod := by
  intro before after l
  have hf : ¬ ReadsAbsentSpec hostNetwork pod := by
    rw [← PodLoopBody_fault_iff, hb]; simp
  have hg : ¬ PassesGates hostNetwork pod := by
    intro hg
    have := (PodLoopBody_emit_iff hostNetwork pod _).2 ⟨hg, rfl⟩
    rw [hb] at this; cases this
  rw [PodAddrs_fst hm, PodAddrs_fst hm]
  simp only [List.filter_append, List.filter_cons, hg, decide_False, Bool.false_eq_true,
    if_false]
  have : (∃ p ∈ before ++ pod :: after, ReadsAbsentSpec hostNetwork p) ↔
      (∃ p ∈ before ++ after, ReadsAbsentSpec hostNetwork p) := by
    constructor
    · rintro ⟨p, hp, hr⟩
      rcases List.mem_append.1 hp with hp | hp
      · exact ⟨p, List.mem_append.2 (Or.inl hp), hr⟩
      · rcases List.mem_cons.1 hp with hp | hp
        · subst hp; exact absurd hr hf
        · exact ⟨p, List.mem_append.2 (Or.inr hp), hr⟩
    · rintro ⟨p, hp, hr⟩
      rcases List.mem_append.1 hp with hp | hp
      · exact ⟨p, List.mem_append.2 (Or.inl hp), hr⟩
      · exact ⟨p, List.mem_append.2 (Or.inr (List.mem_cons_of_mem _ hp)), hr⟩
  by_cases hx : ∃ p ∈ before ++ after, ReadsAbsentSpec hostNetwork p
  · rw [if_pos (this.2 hx), if_pos hx]
  · rw [if_neg (fun h => hx (this.1 h)), if_neg hx]

/-- A pod whose iteration appends `addr` is included as `addr`. -/
theorem includedAs_of_emit {args : GoMap} {hostNetwork : Bool}
    (hm : HostNetworkMode args hostNetwork) {pod : Pod} {addr : String}
    (hb : PodLoopBody hostNetwork pod = .emit addr) : IncludedAs args pod addr := by
  intro before after l as bs h1 h2
  have hf : ¬ ReadsAbsentSpec hostNetwork pod := by
    rw [← PodLoopBody_fault_iff, hb]; simp
  obtain ⟨hg, ha⟩ := (PodLoopBody_emit_iff hostNetwork pod addr).1 hb
  rw [PodAddrs_fst hm] at h1 h2 ⊢
  by_cases hx : ∃ p ∈ before, ReadsAbsentSpec hostNetwork p
  · simp [hx] at h1
  by_cases hy : ∃ p ∈ after, ReadsAbsentSpec hostNetwork p
  · simp [hy] at h2
  simp only [hx, hy, if_false, Exec.returned.injEq, Prod.mk.injEq, and_true] at h1 h2
  have hz : ¬ ∃ p ∈ before ++ pod :: after, ReadsAbsentSpec hostNetwork p := by
    rintro ⟨p, hp, hr⟩
    rcases List.mem_append.1 hp with hp | hp
    · exact hx ⟨p, hp, hr⟩
    · rcases List.mem_cons.1 hp with hp | hp
      · subst hp; exact hf hr
      · exact hy ⟨p, hp, hr⟩
  simp only [hz, if_false, List.filter_append, List.filter_cons, hg, decide_True, if_true,
    List.map_append, List.map_cons, h1, h2, ← ha]

/-- A pod that passes the phase gate, the readiness gate and the IP gate and carries a port
annotation but no spec stops `PodAddrs` wherever it stands in the input. -/
theorem fault_of_readsAbsentSpec {args : GoMap} {hostNetwork : Bool}
    (hm : HostNetworkMode args hostNetwork) {pod : Pod}
    (hr : ReadsAbsentSpec hostNetwork pod) (before after : List Pod) (l : Logger) :
    (PodAddrs ⟨before ++ pod :: after⟩ args l).1 = .fault := by
  rw [PodAddrs_fst hm]
  have : ∃ p ∈ before ++ pod :: after, ReadsAbsentSpec hostNetwork p :=
    ⟨pod, by simp, hr⟩
  rw [if_pos this]

/-- Either the options select a mode, or `PodAddrs` returns its error whatever the pods. -/
theorem mode_or_error (args : GoMap) :
    (∃ hostNetwork, HostNetworkMode args hostNetwork) ∨
      (∃ e, ∀ (pods : PodList) (l : Logger),
        PodAddrs pods args l = (.returned ([], some e), l)) := by
  by_cases hv : args.index "host_network" = ""
  · exact Or.inl ⟨false, Or.inl ⟨hv, rfl⟩⟩
  · cases hb : strconv.ParseBool (args.index "host_network") with
    | mk b err =>
      cases err with
      | none => exact Or.inl ⟨b, Or.inr ⟨hv, hb⟩⟩
      | some e =>
        refine Or.inr ⟨.hostNetworkNotBool e, fun pods l => ?_⟩
        unfold PodAddrs
        simp [hv, hb]

/-- A pod that reaches `podPort` is Running. -/
theorem readsAbsentSpec_running {hostNetwork : Bool} {pod : Pod}
    (h : ReadsAbsentSpec hostNetwork pod) : PodStatus.GetPhase pod.Status = "Running" := h.1

/-- A pod that passes all gates is Running. -/
theorem passesGates_running {hostNetwork : Bool} {pod : Pod}
    (h : PassesGates hostNetwork pod) : PodStatus.GetPhase pod.Status = "Running" := h.1

/-! ## The search of `podPort` -/

/-- The inner loop of `podPort` finds the first qualifying port of the container. -/
theorem podPortPorts_eq ( annotation : String) (host : Bool) (ports : List ContainerPort) :
    podPortPorts annotation host ports =
      (ports.find? (fun p => Qualifies annotation host p)).map (portValue host) := by
  induction ports with
  | nil => rfl
  | cons p rest ih =>
    unfold podPortPorts
    by_cases hn : p.GetName = annotation
    · cases host with
      | true =>
        by_cases hz : p.GetHostPort = 0
        · have hq : ¬ Qualifies annotation true p := fun h => h.2 rfl hz
          simp [hn, hz, ih, List.find?_cons, hq]
        · have hq : Qualifies annotation true p := ⟨hn, fun _ => hz⟩
          simp [hn, hz, List.find?_cons, hq, portValue]
      | false =>
        have hq : Qualifies annotation false p := ⟨hn, fun h => by cases h⟩
        simp [hn, List.find?_cons, hq, portValue]
    · have hq : ¬ Qualifies annotation host p := fun h => hn h.1
      simp [hn, ih, List.find?_cons, hq]

/-- The loops of `podPort` find the first qualifying port in declaration order. -/
theorem podPortContainers_eq ( annotation : String) (host : Bool) (cs : List Container) :
    podPortContainers annotation host cs =
      ((cs.flatMap (fun c => c.Ports)).find? (fun p => Qualifies annotation host p)).map
        (portValue host) := by
  induction cs with
  | nil => rfl
  | cons c rest ih =>
    unfold podPortContainers
    rw [podPortPorts_eq, ih, List.flatMap_cons, List.find?_append]
    cases List.find? (fun p => decide (Qualifies annotation host p)) c.Ports <;> simp

/-- Function `podPort` on a pod with a spec: the value of the first qualifying port, or the
numeric reading of the annotation when no port qualifies. -/
theorem podPort_eq (pod : Pod) ( annotation : String) (host : Bool) (spec : PodSpec)
    (hs : pod.Spec = some spec) :
    podPort pod annotation host =
      match (declaredPorts pod).find? (fun p => Qualifies annotation host p) with
      | some p => .returned (portValue host p, none)
      | none => .returned (int32 (strconv.ParseInt annotation 0 32).1,
          (strconv.ParseInt annotation 0 32).2) := by
  unfold podPort declaredPorts
  simp only [hs]
  rw [podPortContainers_eq]
  cases List.find? (fun p => decide (Qualifies annotation host p))
    (spec.Containers.flatMap (fun c => c.Ports)) <;> simp

/-- The loop only looks at what its body does with each pod. -/
theorem PodLoop_congr (hostNetwork : Bool) (xs ys : List Pod)
    (h : xs.map (PodLoopBody hostNetwork) = ys.map (PodLoopBody hostNetwork))
    (addrs : List String) (l : Logger) :
    PodLoop hostNetwork xs addrs l = PodLoop hostNetwork ys addrs l := by
  induction xs generalizing ys addrs l with
  | nil =>
    cases ys with
    | nil => rfl
    | cons y ys => simp at h
  | cons x xs ih =>
    cases ys with
    | nil => simp at h
    | cons y ys =>
      simp only [List.map_cons, List.cons.injEq] at h
      unfold PodLoop
      rw [← h.1]
      cases PodLoopBody hostNetwork x with
      | skip line => exact ih ys h.2 _ _
      | emit addr => exact ih ys h.2 _ _
      | fault => rfl

/-- Conditions of a type other than "Ready" play no part in the body of the loop. -/
theorem PodLoopBody_ready_conditions_only (hostNetwork : Bool) (pod : Pod)
    (status : PodStatus) (hs : pod.Status = some status) :
    PodLoopBody hostNetwork
        { pod with Status := some { status with
            Conditions := status.Conditions.filter (fun c => c.GetType = "Ready") } } =
      PodLoopBody hostNetwork pod := by
  unfold PodLoopBody podPort
  simp only [hs, PodStatus.GetPhase, PodStatus.GetHostIP, PodStatus.GetPodIP]
  have : (status.Conditions.filter (fun c => c.GetType = "Ready")).any
        (fun condition => decide (condition.GetType = "Ready" ∧ condition.GetStatus ≠ "True")) =
      status.Conditions.any
        (fun condition => decide (condition.GetType = "Ready" ∧ condition.GetStatus ≠ "True")) := by
    induction status.Conditions with
    | nil => rfl
    | cons c cs ih =>
      by_cases hc : c.GetType = "Ready"
      · simp [List.filter_cons, hc, ih]
      · simp [List.filter_cons, hc, ih]
  rw [this]

/-- A pod that is included as `addr` is one whose iteration appends `addr`. -/
theorem emit_of_includedAs {args : GoMap} {hostNetwork : Bool}
    (hm : HostNetworkMode args hostNetwork) {pod : Pod} {addr : String}
    (h : IncludedAs args pod addr) : PodLoopBody hostNetwork pod = .emit addr := by
  have h0 : (PodAddrs ⟨[]⟩ args []).1 = .returned ([], none) := by
    rw [PodAddrs_fst hm]; simp
  have h1 := h [] [] [] [] [] h0 h0
  rw [List.nil_append, List.nil_append, PodAddrs_fst hm] at h1
  by_cases hr : ReadsAbsentSpec hostNetwork pod
  · simp [hr] at h1
  · by_cases hg : PassesGates hostNetwork pod
    · simp [hr, hg] at h1
      exact (PodLoopBody_emit_iff hostNetwork pod addr).2 ⟨hg, h1.symm⟩
    · simp [hr, hg] at h1

/-- Appending a colon and a port changes the address. -/
theorem append_colon_ne (a x : String) : a ++ ":" ++ x ≠ a := by
  intro h
  have := congrArg String.length h
  simp only [String.length_append] at this
  have h1 : (":" : String).length = 1 := rfl
  omega

/-- The port annotation is empty exactly when the metadata, the annotations or the entry is
missing, or the entry is empty. -/
theorem annotatedPort_eq (pod : Pod) (md : ObjectMeta) (m : GoMap)
    (h1 : pod.Metadata = some md) (h2 : md.Annotations = some m) :
    annotatedPort pod = (m.lookup AnnotationKeyPort).getD "" := by
  unfold annotatedPort GoMap.index
  simp [h1, h2]

/-- A pod that declares a port has a spec. -/
theorem spec_of_declaredPorts {pod : Pod} {p : ContainerPort} (h : p ∈ declaredPorts pod) :
    ∃ spec, pod.Spec = some spec := by
  unfold declaredPorts at h
  cases hs : pod.Spec with
  | none => rw [hs] at h; simp at h
  | some spec => exact ⟨spec, rfl⟩

/-- With a port that qualifies and none before it, `podPort` returns the value of that port. -/
theorem podPort_first_qualifying {pod : Pod} { annotation : String} {host : Bool}
    {pre post : List ContainerPort} {p : ContainerPort}
    (hd : declaredPorts pod = pre ++ p :: post)
    (hpre : ∀ q ∈ pre, ¬ Qualifies annotation host q) (hp : Qualifies annotation host p) :
    podPort pod annotation host = .returned (portValue host p, none) := by
  obtain ⟨spec, hs⟩ := @spec_of_declaredPorts pod p (by rw [hd]; simp)
  rw [podPort_eq pod annotation host spec hs]
  have : (declaredPorts pod).find? (fun p => Qualifies annotation host p) = some p := by
    rw [List.find?_eq_some]
    refine ⟨by simpa using hp, pre, post, hd, ?_⟩
    intro a ha
    simpa using hpre a ha
  rw [this]

/-- With no port that qualifies, `podPort` on a pod with a spec is the numeric reading of the
annotation. -/
theorem podPort_none_qualifying {pod : Pod} { annotation : String} {host : Bool}
    {spec : PodSpec} (hs : pod.Spec = some spec)
    (hno : ∀ q ∈ declaredPorts pod, ¬ Qualifies annotation host q) :
    podPort pod annotation host =
      .returned (int32 (strconv.ParseInt annotation 0 32).1,
        (strconv.ParseInt annotation 0 32).2) := by
  rw [podPort_eq pod annotation host spec hs]
  have : (declaredPorts pod).find? (fun p => Qualifies annotation host p) = none := by
    rw [List.find?_eq_none]
    intro a ha
    simpa using hno a ha
  rw [this]

/-- Among the elements of a list that satisfy a property there is a first one. -/
theorem exists_first {α : Type} (P : α → Prop) [DecidablePred P] (xs : List α)
    (h : ∃ x ∈ xs, P x) :
    ∃ pre x post, xs = pre ++ x :: post ∧ (∀ y ∈ pre, ¬ P y) ∧ P x := by
  cases hf : xs.find? (fun x => P x) with
  | none =>
    rw [List.find?_eq_none] at hf
    obtain ⟨x, hx, hpx⟩ := h
    exact absurd hpx (by simpa using hf x hx)
  | some x =>
    rw [List.find?_eq_some] at hf
    obtain ⟨hpx, pre, post, hxs, hpre⟩ := hf
    exact ⟨pre, x, post, hxs, fun y hy => by simpa using hpre y hy, by simpa using hpx⟩

/-- A successful `ParseInt` with bit size 32 returns a value of the `int32` range. -/
theorem ParseIntBytes_range (s : List Nat) (v : Int)
    (h : strconv.ParseIntBytes s 0 32 = (v, none)) : -2 ^ 31 ≤ v ∧ v < 2 ^ 31 := by
  unfold strconv.ParseIntBytes at h
  by_cases h0 : s = []
  · simp [h0] at h
  · simp only [h0, if_false] at h
    generalize strconv.ParseUint _ 0 32 = r at h
    generalize decide (s.head? = some 45) = neg at h
    obtain ⟨un, err⟩ := r
    simp only [OfNat.ofNat_ne_zero, if_false, Nat.reduceSub] at h
    split_ifs at h with h1 h2 h3 h4
    · simp only [Prod.mk.injEq] at h
      rw [h.2] at h1
      simp at h1
    · cases h
    · cases h
    · simp only [Prod.mk.injEq, and_true] at h
      simp only [h4, true_and, not_lt] at h3
      subst h
      constructor <;> push_cast <;> omega
    · simp only [Prod.mk.injEq, and_true] at h
      simp [h4] at h2
      subst h
      constructor <;> push_cast <;> omega

/-- The conversion `int32` leaves a successfully parsed value as it is. -/
theorem int32_ParseInt (s : String) (v : Int) (h : strconv.ParseInt s 0 32 = (v, none)) :
    int32 v = v := by
  have := ParseIntBytes_range _ v h
  unfold int32
  omega

/-- Under host network, what `podPort` resolves without error is the nonzero `hostPort` of
the first qualifying port, or, when no port qualifies, the numeric reading of the
annotation. -/
theorem podPort_host_cases (pod : Pod) ( annotation : String) (port : Int)
    (h : podPort pod annotation true = .returned (port, none)) :
    (∃ pre p post, declaredPorts pod = pre ++ p :: post ∧
        (∀ q ∈ pre, ¬ (q.GetName = annotation ∧ q.GetHostPort ≠ 0)) ∧
        p.GetName = annotation ∧ p.GetHostPort ≠ 0 ∧ port = p.GetHostPort) ∨
      ((∀ q ∈ declaredPorts pod, ¬ (q.GetName = annotation ∧ q.GetHostPort ≠ 0)) ∧
        strconv.ParseInt annotation 0 32 = (port, none)) := by
  have hspec : ∃ spec, pod.Spec = some spec := by
    cases hs : pod.Spec with
    | none => rw [(podPort_fault_iff pod annotation true).2 hs] at h; cases h
    | some spec => exact ⟨spec, rfl⟩
  obtain ⟨spec, hs⟩ := hspec
  by_cases hex : ∃ p ∈ declaredPorts pod, Qualifies annotation true p
  · left
    obtain ⟨pre, p, post, hd, hpre, hp⟩ :=
      exists_first (fun p => Qualifies annotation true p) (declaredPorts pod) hex
    have := podPort_first_qualifying hd hpre hp
    rw [this] at h
    simp only [Exec.returned.injEq, Prod.mk.injEq, and_true, portValue, if_true] at h
    refine ⟨pre, p, post, hd, ?_, hp.1, hp.2 rfl, h.symm⟩
    intro q hq hc
    exact hpre q hq ⟨hc.1, fun _ => hc.2⟩
  · right
    have hno : ∀ q ∈ declaredPorts pod, ¬ Qualifies annotation true q :=
      fun q hq hc => hex ⟨q, hq, hc⟩
    rw [podPort_none_qualifying hs hno] at h
    simp only [Exec.returned.injEq, Prod.mk.injEq] at h
    have hparse : strconv.ParseInt annotation 0 32 =
        ((strconv.ParseInt annotation 0 32).1, none) := by
      rw [← h.2]
    have h32 := int32_ParseInt _ _ hparse
    refine ⟨fun q hq hc => hno q hq ⟨hc.1, fun _ => hc.2⟩, ?_⟩
    rw [hparse, ← h.1, h32]

end k8s

/-! ## Reading back a rendered port -/

namespace k8s

/-- The code point of a digit character. -/
theorem toNat_digit (d : Nat) (hd : d < 10) : (Char.ofNat (48 + d)).toNat = 48 + d := by
  interval_cases d <;> rfl

/-- One round of the digit loop on a decimal digit. -/
theorem parseUintLoop_digit (base0 : Bool) (d n : Nat) (cs : List Nat) (b : Bool)
    (hd : d < 10) (hn : n * 10 + d ≤ 2 ^ 32 - 1) :
    strconv.parseUintLoop 10 base0 ((2 ^ 64 - 1) / 10 + 1) (2 ^ 32 - 1) ((48 + d) :: cs) n b =
      strconv.parseUintLoop 10 base0 ((2 ^ 64 - 1) / 10 + 1) (2 ^ 32 - 1) cs (n * 10 + d) b := by
  rw [strconv.parseUintLoop]
  have h1 : ¬ (48 + d = 95 ∧ base0 = true) := by omega
  have h2 : 48 ≤ 48 + d ∧ 48 + d ≤ 57 := by omega
  have h3 : ¬ (48 + d - 48 ≥ 10) := by omega
  have h4 : ¬ (n ≥ (2 ^ 64 - 1) / 10 + 1) := by omega
  have h5 : (n * 10) % 2 ^ 64 = n * 10 := Nat.mod_eq_of_lt (by omega)
  have h6 : (n * 10 + (48 + d - 48)) % 2 ^ 64 = n * 10 + d := by
    rw [Nat.mod_eq_of_lt (by omega)]; omega
  simp only [h1, if_false, h2, and_self, if_true, h3, h4, h5, h6]
  have h7 : ¬ (n * 10 + d < n * 10 ∨ n * 10 + d > 2 ^ 32 - 1) := by omega
  simp only [h7, if_false]

/-- Parsing what `formatDigits` wrote in front of `acc` leaves the loop at value `u`. -/
theorem parseUintLoop_formatDigits (base0 : Bool) (fuel : Nat) :
    ∀ (u : Nat) (acc : List Char) (b : Bool), u < 10 ^ fuel → u ≤ 2 ^ 32 - 1 →
      strconv.parseUintLoop 10 base0 ((2 ^ 64 - 1) / 10 + 1) (2 ^ 32 - 1)
          ((strconv.formatDigits fuel u acc).map Char.toNat) 0 b =
        strconv.parseUintLoop 10 base0 ((2 ^ 64 - 1) / 10 + 1) (2 ^ 32 - 1)
          (acc.map Char.toNat) u b := by
  induction fuel with
  | zero => intro u acc b h; simp at h; subst h; intro _; rfl
  | succ fuel ih =>
    intro u acc b hu hmax
    unfold strconv.formatDigits
    by_cases h10 : u ≥ 10
    · simp only [h10, if_true]
      have hlt : u / 10 < 10 ^ fuel := by
        rw [Nat.div_lt_iff_lt_mul (by norm_num)]
        rw [pow_succ] at hu; exact hu
      rw [ih (u / 10) _ b hlt (by omega)]
      rw [List.map_cons, toNat_digit _ (Nat.mod_lt _ (by norm_num))]
      rw [parseUintLoop_digit base0 (u % 10) (u / 10) _ b (Nat.mod_lt _ (by norm_num))
        (by omega)]
      congr 1
      omega
    · simp only [h10, if_false]
      rw [List.map_cons, toNat_digit _ (by omega)]
      rw [parseUintLoop_digit base0 u 0 _ b (by omega) (by omega)]
      congr 1
      omega

/-- The decimal rendering of a positive number starts with a digit from 1 to 9. -/
theorem formatDigits_head (fuel : Nat) :
    ∀ (u : Nat) (acc : List Char), 0 < u → u < 10 ^ fuel →
      ∃ d rest, 1 ≤ d ∧ d < 10 ∧ strconv.formatDigits fuel u acc = Char.ofNat (48 + d) :: rest := by
  induction fuel with
  | zero => intro u acc h0 h; simp at h; omega
  | succ fuel ih =>
    intro u acc h0 hu
    unfold strconv.formatDigits
    by_cases h10 : u ≥ 10
    · simp only [h10, if_true]
      have hlt : u / 10 < 10 ^ fuel := by
        rw [Nat.div_lt_iff_lt_mul (by norm_num)]
        rw [pow_succ] at hu; exact hu
      exact ih (u / 10) _ (Nat.div_pos h10 (by norm_num)) hlt
    · simp only [h10, if_false]
      exact ⟨u, acc, h0, by omega, rfl⟩

/-- The fuel `u + 1` is enough for the digits of `u`. -/
theorem lt_ten_pow_succ (u : Nat) : u < 10 ^ (u + 1) := by
  have h1 : u < 2 ^ u := Nat.lt_two_pow u
  have h2 : 2 ^ u ≤ 10 ^ u := Nat.pow_le_pow_left (by norm_num) u
  have h3 : 10 ^ u ≤ 10 ^ (u + 1) := Nat.pow_le_pow_right (by norm_num) (by omega)
  omega


/-- `ParseUint` with base 0 and bit size 32 reads back the decimal rendering of `a`. -/
theorem ParseUint_formatDigits (a : Nat) (ha : a ≤ 2 ^ 32 - 1) :
    strconv.ParseUint ((strconv.formatDigits (a + 1) a []).map Char.toNat) 0 32 = (a, none) := by
  by_cases h0 : a = 0
  · subst h0; decide
  · obtain ⟨d, rest, hd1, hd2, hfd⟩ :=
      formatDigits_head (a + 1) a [] (by omega) (lt_ten_pow_succ a)
    have hloop := parseUintLoop_formatDigits true (a + 1) a [] false (lt_ten_pow_succ a) ha
    rw [hfd] at hloop
    rw [hfd]
    simp only [List.map_cons, toNat_digit d hd2] at hloop ⊢
    have hc : strconv.chooseBase ((48 + d) :: rest.map Char.toNat) 0 =
        some (10, (48 + d) :: rest.map Char.toNat) := by
      unfold strconv.chooseBase
      have hb : ¬ (2 ≤ 0 ∧ 0 ≤ 36) := by omega
      have hh : ¬ (((48 + d) :: rest.map Char.toNat).head? = some 48) := by
        simp only [List.head?_cons, Option.some.injEq]; omega
      simp only [hb, if_false, if_true, hh]
    unfold strconv.ParseUint
    have hne : ¬ ((48 + d) :: rest.map Char.toNat = []) := by simp
    have h64 : ¬ (32 > 64) := by omega
    have h32 : ¬ (32 = 0) := by omega
    simp only [hne, if_false, hc, decide_True, h64, h32]
    rw [hloop]
    simp [strconv.parseUintLoop]

/-- The decimal rendering of a natural number starts with a digit. -/
theorem formatDigits_bytes (a : Nat) :
    ∃ c rest, (strconv.formatDigits (a + 1) a []).map Char.toNat = c :: rest ∧
      48 ≤ c ∧ c ≤ 57 := by
  by_cases h0 : a = 0
  · subst h0; exact ⟨48, [], by decide, by omega, by omega⟩
  · obtain ⟨d, rest, hd1, hd2, hfd⟩ :=
      formatDigits_head (a + 1) a [] (by omega) (lt_ten_pow_succ a)
    refine ⟨48 + d, rest.map Char.toNat, ?_, by omega, by omega⟩
    rw [hfd, List.map_cons, toNat_digit d hd2]

/-- `ParseInt` with base 0 and bit size 32 reads back the decimal rendering of every
`int32`. -/
theorem ParseInt_FormatInt (n : Int) (h1 : -2 ^ 31 ≤ n) (h2 : n < 2 ^ 31) :
    strconv.ParseInt (strconv.FormatInt n) 0 32 = (n, none) := by
  obtain ⟨c, rest, hcr, hc1, hc2⟩ := formatDigits_bytes n.natAbs
  have hu := ParseUint_formatDigits n.natAbs (by omega)
  unfold strconv.ParseInt strconv.FormatInt strconv.ParseIntBytes
  by_cases hneg : n < 0
  · simp only [hneg, if_true, List.map_cons]
    have h45 : Char.toNat '-' = 45 := rfl
    simp only [h45, List.head?_cons, List.tail_cons, reduceCtorEq, if_false, or_true, if_true,
      hu, Option.isSome_none, Bool.false_eq_true, false_and, decide_True, OfNat.ofNat_ne_zero,
      Nat.reduceSub, not_true_eq_false, true_and]
    have hgt : ¬ (n.natAbs > 2 ^ 31) := by omega
    simp only [hgt, if_false, Prod.mk.injEq, and_true]
    omega
  · simp only [hneg, if_false]
    rw [hcr] at hu ⊢
    have hh43 : ¬ (c = 43) := by omega
    have hh45 : ¬ (c = 45) := by omega
    simp only [reduceCtorEq, if_false, List.head?_cons, Option.some.injEq, hh43, hh45, or_self,
      hu, Option.isSome_none, Bool.false_eq_true, false_and, decide_False, OfNat.ofNat_ne_zero,
      Nat.reduceSub, not_false_eq_true, true_and]
    have hge : ¬ (n.natAbs ≥ 2 ^ 31) := by omega
    simp only [hge, if_false, Prod.mk.injEq, and_true]
    omega


/-- The decimal rendering of an integer is not the empty string. -/
theorem FormatInt_ne_empty (n : Int) : strconv.FormatInt n ≠ "" := by
  obtain ⟨c, rest, hcr, _, _⟩ := formatDigits_bytes n.natAbs
  unfold strconv.FormatInt
  intro h
  split_ifs at h with hneg
  · have := congrArg String.data h
    simp at this
  · have := congrArg String.data h
    simp only at this
    rw [this] at hcr
    simp at hcr

/-- A pod that is never the subject of an appending iteration is never included. -/
theorem not_includedAs_of_not_emit {args : GoMap} {hostNetwork : Bool}
    (hm : HostNetworkMode args hostNetwork) {pod : Pod}
    (h : ∀ addr, PodLoopBody hostNetwork pod ≠ .emit addr) (addr : String) :
    ¬ IncludedAs args pod addr :=
  fun hinc => h addr (emit_of_includedAs hm hinc)

/-- A pod with a spec that is not included is excluded. -/
theorem excluded_of_spec_of_not_emit {args : GoMap} {hostNetwork : Bool}
    (hm : HostNetworkMode args hostNetwork) {pod : Pod} (hspec : pod.Spec ≠ none)
    (h : ∀ addr, PodLoopBody hostNetwork pod ≠ .emit addr) : Excluded args pod := by
  cases hb : PodLoopBody hostNetwork pod with
  | skip line => exact excluded_of_skip hm hb
  | emit addr => exact absurd hb (h addr)
  | fault => exact absurd ((PodLoopBody_fault_iff hostNetwork pod).1 hb).2.2.2.2 hspec

/-- The result of `PodAddrs` on a concatenation, from the results on the two parts. -/
theorem PodAddrs_fst_append {args : GoMap} {hostNetwork : Bool}
    (hm : HostNetworkMode args hostNetwork) (xs ys : List Pod) (l l1 l2 : Logger) :
    (PodAddrs ⟨xs ++ ys⟩ args l).1 =
      match (PodAddrs ⟨xs⟩ args l1).1, (PodAddrs ⟨ys⟩ args l2).1 with
      | .returned (as, _), .returned (bs, _) => .returned (as ++ bs, none)
      | _, _ => .fault := by
  rw [PodAddrs_fst hm, PodAddrs_fst hm, PodAddrs_fst hm]
  by_cases hx : ∃ p ∈ xs, ReadsAbsentSpec hostNetwork p
  · have hxy : ∃ p ∈ xs ++ ys, ReadsAbsentSpec hostNetwork p := by
      obtain ⟨p, hp, hr⟩ := hx
      exact ⟨p, List.mem_append.2 (Or.inl hp), hr⟩
    rw [if_pos hxy, if_pos hx]
  · by_cases hy : ∃ p ∈ ys, ReadsAbsentSpec hostNetwork p
    · have hxy : ∃ p ∈ xs ++ ys, ReadsAbsentSpec hostNetwork p := by
        obtain ⟨p, hp, hr⟩ := hy
        exact ⟨p, List.mem_append.2 (Or.inr hp), hr⟩
      rw [if_pos hxy, if_neg hx, if_pos hy]
    · have hxy : ¬ ∃ p ∈ xs ++ ys, ReadsAbsentSpec hostNetwork p := by
        rintro ⟨p, hp, hr⟩
        rcases List.mem_append.1 hp with hp | hp
        · exact hx ⟨p, hp, hr⟩
        · exact hy ⟨p, hp, hr⟩
      rw [if_neg hxy, if_neg hx, if_neg hy]
      simp only [List.filter_append, List.map_append]

/-- Function `ParseBool` fails exactly outside the twelve literals, with a syntax error. -/
theorem ParseBool_error_iff (v : String) :
    ((strconv.ParseBool v).2 = some .ErrSyntaxKind ↔ v ∉ boolLiterals) ∧
      ((strconv.ParseBool v).2 = none ↔ v ∈ boolLiterals) := by
  unfold strconv.ParseBool boolLiterals
  split_ifs with h1 h2
  · simp only [reduceCtorEq, false_iff, not_not, true_iff]
    rcases h1 with h | h | h | h | h | h <;> simp [h]
  · simp only [reduceCtorEq, false_iff, not_not, true_iff]
    rcases h2 with h | h | h | h | h | h <;> simp [h]
  · simp only [true_iff, reduceCtorEq, false_iff]
    push_neg at h1 h2
    simp only [List.mem_cons, List.mem_singleton, not_or, List.not_mem_nil, or_false]
    have hall := And.intro h1.1 (And.intro h1.2.1 (And.intro h1.2.2.1 (And.intro h1.2.2.2.1
      (And.intro h1.2.2.2.2.1 (And.intro h1.2.2.2.2.2 h2)))))
    exact ⟨hall, hall⟩

/-- An empty or accepted `host_network` value selects a mode. -/
theorem mode_of_literal (args : GoMap)
    (h : args.index "host_network" = "" ∨ args.index "host_network" ∈ boolLiterals) :
    ∃ hostNetwork, HostNetworkMode args hostNetwork := by
  by_cases hv : args.index "host_network" = ""
  · exact ⟨false, Or.inl ⟨hv, rfl⟩⟩
  · have hmem : args.index "host_network" ∈ boolLiterals := h.resolve_left hv
    have := (ParseBool_error_iff (args.index "host_network")).2.2 hmem
    exact ⟨(strconv.ParseBool (args.index "host_network")).1, Or.inr ⟨hv, by rw [← this]⟩⟩

/-- A non-empty `host_network` value outside the literals makes `PodAddrs` return its error
and no address, whatever the pods. -/
theorem PodAddrs_of_bad_value (pods : PodList) (args : GoMap) (l : Logger)
    (hv : args.index "host_network" ≠ "") (hmem : args.index "host_network" ∉ boolLiterals) :
    PodAddrs pods args l = (.returned ([], some (.hostNetworkNotBool .ErrSyntaxKind)), l) := by
  have := (ParseBool_error_iff (args.index "host_network")).1.2 hmem
  unfold PodAddrs
  simp only [hv, ne_eq, not_false_eq_true, if_true, this]

/-! ## The diagnostic log -/

/-- A pod whose iteration writes a record fails a gate, does not fault, and the record is its
diagnostic record. -/
theorem PodLoopBody_skip (hostNetwork : Bool) (pod : Pod) (line : LogLine)
    (hb : PodLoopBody hostNetwork pod = .skip line) :
    line = diagnosticOf hostNetwork pod ∧ ¬ PassesGates hostNetwork pod ∧
      ¬ ReadsAbsentSpec hostNetwork pod := by
  have hf : ¬ ReadsAbsentSpec hostNetwork pod := by
    rw [← PodLoopBody_fault_iff, hb]; simp
  have hg : ¬ PassesGates hostNetwork pod := by
    intro hg
    have := (PodLoopBody_emit_iff hostNetwork pod _).2 ⟨hg, rfl⟩
    rw [hb] at this; cases this
  refine ⟨?_, hg, hf⟩
  rw [PodLoopBody_eq] at hb
  unfold diagnosticOf
  by_cases hp : PhaseGate pod <;> by_cases hr : ReadinessGate pod <;>
    by_cases hi : IPGate hostNetwork pod <;>
    simp only [hp, hr, hi, not_true_eq_false, not_false_eq_true, if_true, if_false,
      Iteration.skip.injEq] at hb ⊢ <;> try exact hb.symm
  by_cases ha : annotatedPort pod = ""
  · simp [ha] at hb
  · simp only [ha, if_false] at hb
    cases hpp : podPort pod (annotatedPort pod) hostNetwork with
    | fault => rw [hpp] at hb; cases hb
    | returned v =>
      obtain ⟨port, err⟩ := v
      rw [hpp] at hb
      cases err with
      | none => cases hb
      | some e =>
        simp only [Iteration.skip.injEq] at hb
        exact hb.symm

/-- The logger after the loop: one record for each pod that fails a gate, in input order,
among the pods up to the first one that faults. -/
theorem PodLoop_snd (hostNetwork : Bool) (items : List Pod) (addrs : List String)
    (l : Logger) :
    (PodLoop hostNetwork items addrs l).2 =
      l ++ ((items.takeWhile (fun pod => ¬ ReadsAbsentSpec hostNetwork pod)).filter
        (fun pod => ¬ PassesGates hostNetwork pod)).map (diagnosticOf hostNetwork) := by
  induction items generalizing addrs l with
  | nil => simp [PodLoop]
  | cons pod rest ih =>
    unfold PodLoop
    cases hb : PodLoopBody hostNetwork pod with
    | skip line =>
      obtain ⟨hl, hg, hf⟩ := PodLoopBody_skip hostNetwork pod line hb
      simp only [ih, List.takeWhile_cons, hf, not_false_eq_true, decide_True, if_true,
        List.filter_cons, hg, List.map_cons, Logger.Printf, ← hl, List.append_assoc,
        List.singleton_append]
    | emit addr =>
      have hf : ¬ ReadsAbsentSpec hostNetwork pod := by
        rw [← PodLoopBody_fault_iff, hb]; simp
      obtain ⟨hg, _⟩ := (PodLoopBody_emit_iff hostNetwork pod addr).1 hb
      simp only [ih, List.takeWhile_cons, hf, not_false_eq_true, decide_True, if_true,
        List.filter_cons, hg, not_true_eq_false, decide_False, Bool.false_eq_true, if_false]
    | fault =>
      have hf : ReadsAbsentSpec hostNetwork pod := by
        rw [← PodLoopBody_fault_iff, hb]
      simp [List.takeWhile_cons, hf]

/-- The logger after `PodAddrs` under a valid `host_network` value. -/
theorem PodAddrs_snd {args : GoMap} {hostNetwork : Bool}
    (hm : HostNetworkMode args hostNetwork) (items : List Pod) (l : Logger) :
    (PodAddrs ⟨items⟩ args l).2 =
      l ++ ((items.takeWhile (fun pod => ¬ ReadsAbsentSpec hostNetwork pod)).filter
        (fun pod => ¬ PassesGates hostNetwork pod)).map (diagnosticOf hostNetwork) := by
  rw [PodAddrs_of_mode hm, ← PodLoop_snd hostNetwork items [] l]
  cases hl : PodLoop hostNetwork items [] l with
  | mk r l' => cases r <;> rfl

/-- The diagnostic record of a pod carries the name of the pod. -/
theorem diagnosticOf_name (hostNetwork : Bool) (pod : Pod) :
    (diagnosticOf hostNetwork pod).name = ObjectMeta.GetName pod.Metadata := by
  unfold diagnosticOf
  by_cases hp : PhaseGate pod
  · by_cases hr : ReadinessGate pod
    · by_cases hi : IPGate hostNetwork pod
      · simp only [hp, hr, hi, not_true_eq_false, if_false]
        split <;> rfl
      · simp only [hp, hr, hi, not_true_eq_false, not_false_eq_true, if_false, if_true]
        rfl
    · simp only [hp, hr, not_true_eq_false, not_false_eq_true, if_false, if_true]
      rfl
  · simp only [hp, not_false_eq_true, if_true]
    rfl

/-- The pods that pass and the pods that fail a test make up the list. -/
theorem length_filter_add_filter_not {α : Type} (P : α → Prop) [DecidablePred P]
    (xs : List α) :
    (xs.filter (fun x => ¬ P x)).length + (xs.filter (fun x => P x)).length = xs.length := by
  induction xs with
  | nil => rfl
  | cons x xs ih =>
    by_cases hx : P x
    · simp only [List.filter_cons, hx, not_true_eq_false, decide_False, Bool.false_eq_true,
        if_false, decide_True, if_true, List.length_cons]
      omega
    · simp only [List.filter_cons, hx, not_false_eq_true, decide_True, if_true, decide_False,
        Bool.false_eq_true, if_false, List.length_cons]
      omega

/-! ## The range of a resolved port -/

/-- What `podPort` resolves without error on a pod whose declared ports are `int32` values
is an `int32`. -/
theorem podPort_range (pod : Pod) ( annotation : String) (host : Bool) (port : Int)
    (hwt : Int32Ports pod) (h : podPort pod annotation host = .returned (port, none)) :
    -2 ^ 31 ≤ port ∧ port < 2 ^ 31 := by
  cases hs : pod.Spec with
  | none => rw [(podPort_fault_iff pod annotation host).2 hs] at h; cases h
  | some spec =>
    rw [podPort_eq pod annotation host spec hs] at h
    cases hf : (declaredPorts pod).find? (fun p => Qualifies annotation host p) with
    | some p =>
      rw [hf] at h
      simp only [Exec.returned.injEq, Prod.mk.injEq, and_true] at h
      have hp := hwt p (List.mem_of_find?_eq_some hf)
      rw [← h]
      unfold portValue
      cases host
      · simpa using hp.2
      · simpa using hp.1
    | none =>
      rw [hf] at h
      simp only [Exec.returned.injEq, Prod.mk.injEq] at h
      have hparse : strconv.ParseInt annotation 0 32 =
          ((strconv.ParseInt annotation 0 32).1, none) := by
        rw [← h.2]
      have h32 := int32_ParseInt _ _ hparse
      have hr := ParseIntBytes_range _ _ hparse
      rw [← h.1, h32]
      exact hr

/-! ## Integer literals read by `ParseInt` -/

/-- A digit is not the underscore. -/
theorem digitOf_ne_underscore (c d : Nat) (h : strconv.digitOf c = some d) : c ≠ 95 := by
  rintro rfl
  have h0 : strconv.digitOf 95 = none := by decide
  rw [h0] at h
  cases h

/-- One round of the digit loop on a digit of the base 8, 10 or 16. -/
theorem parseUintLoop_step (b : Nat) (hb : b = 8 ∨ b = 10 ∨ b = 16) (base0 : Bool)
    (c d n : Nat) (cs : List Nat) (u : Bool) (hc : strconv.digitOf c = some d) (hd : d < b)
    (hfit : n * b + d ≤ 2 ^ 32 - 1) :
    strconv.parseUintLoop b base0 ((2 ^ 64 - 1) / b + 1) (2 ^ 32 - 1) (c :: cs) n u =
      strconv.parseUintLoop b base0 ((2 ^ 64 - 1) / b + 1) (2 ^ 32 - 1) cs (n * b + d) u := by
  have h95 := digitOf_ne_underscore c d hc
  have hb1 : 1 ≤ b := by rcases hb with rfl | rfl | rfl <;> omega
  have hcut : 2 ^ 32 ≤ (2 ^ 64 - 1) / b + 1 := by
    rcases hb with rfl | rfl | rfl <;> norm_num
  rw [strconv.parseUintLoop]
  have h1 : ¬ (c = 95 ∧ base0 = true) := fun h => h95 h.1
  unfold strconv.digitOf at hc
  simp only [h1, if_false, hc]
  have hnb : n ≤ n * b := Nat.le_mul_of_pos_right n hb1
  have hn : n * b ≤ 2 ^ 32 - 1 := by omega
  have h3 : ¬ (d ≥ b) := by omega
  have h4 : ¬ (n ≥ (2 ^ 64 - 1) / b + 1) := by omega
  have h5 : (n * b) % 2 ^ 64 = n * b := Nat.mod_eq_of_lt (by omega)
  have h6 : (n * b + d) % 2 ^ 64 = n * b + d := Nat.mod_eq_of_lt (by omega)
  have h7 : ¬ (n * b + d < n * b ∨ n * b + d > 2 ^ 32 - 1) := by omega
  simp only [h3, h4, if_false, h5, h6, h7]

/-- The running value never decreases. -/
theorem le_valueFrom (b : Nat) (hb : 1 ≤ b) (cs : List Nat) :
    ∀ n, n ≤ strconv.valueFrom b n cs := by
  induction cs with
  | nil => intro n; exact le_refl n
  | cons c cs ih =>
    intro n
    unfold strconv.valueFrom at ih ⊢
    rw [List.foldl_cons]
    have h1 := ih (n * b + (strconv.digitOf c).getD 0)
    have h2 : n ≤ n * b := Nat.le_mul_of_pos_right n hb
    omega

/-- The digit loop on a list of digits of the base returns the number they denote. -/
theorem parseUintLoop_digits (b : Nat) (hb : b = 8 ∨ b = 10 ∨ b = 16) (base0 : Bool)
    (u : Bool) (cs : List Nat) :
    ∀ n, (∀ c ∈ cs, strconv.IsDigit b c) → strconv.valueFrom b n cs ≤ 2 ^ 32 - 1 →
      strconv.parseUintLoop b base0 ((2 ^ 64 - 1) / b + 1) (2 ^ 32 - 1) cs n u =
        .ok (strconv.valueFrom b n cs, u) := by
  have hb1 : 1 ≤ b := by rcases hb with rfl | rfl | rfl <;> omega
  induction cs with
  | nil => intro n _ _; rfl
  | cons c cs ih =>
    intro n hdig hfit
    obtain ⟨d, hc, hd⟩ := hdig c (List.mem_cons_self _ _)
    have hv : strconv.valueFrom b n (c :: cs) = strconv.valueFrom b (n * b + d) cs := by
      unfold strconv.valueFrom
      rw [List.foldl_cons, hc]
      rfl
    rw [hv] at hfit ⊢
    have hle := le_valueFrom b hb1 cs (n * b + d)
    rw [parseUintLoop_step b hb base0 c d n cs u hc hd (by omega)]
    exact ih (n * b + d) (fun c' hc' => hdig c' (List.mem_cons_of_mem _ hc')) hfit

/-- A digit of a base up to 10 is one of the bytes `0`-`9`, and `lower` leaves it alone. -/
theorem isDigit_small (b c : Nat) (hb : b ≤ 10) (h : strconv.IsDigit b c) :
    48 ≤ c ∧ c < 48 + b ∧ strconv.lower c = c ∧ strconv.digitOf c = some (c - 48) := by
  obtain ⟨d, hc, hd⟩ := h
  unfold strconv.digitOf at hc
  split_ifs at hc with h1 h2
  · simp only [Option.some.injEq] at hc
    refine ⟨h1.1, by omega, ?_, by unfold strconv.digitOf; simp [h1]⟩
    obtain ⟨h48, h57⟩ := h1
    interval_cases c <;> rfl
  · simp only [Option.some.injEq] at hc
    omega

/-- The bytes `0`-`9` below the base are its digits. -/
theorem isDigit_of_range (b c : Nat) (h1 : 48 ≤ c) (h2 : c < 48 + b) (hb : b ≤ 10) :
    strconv.IsDigit b c := by
  refine ⟨c - 48, ?_, by omega⟩
  unfold strconv.digitOf
  have : 48 ≤ c ∧ c ≤ 57 := by omega
  simp [this]

/-- A digit is neither a sign nor empty. -/
theorem digitOf_not_sign (c d : Nat) (h : strconv.digitOf c = some d) : c ≠ 43 ∧ c ≠ 45 := by
  constructor
  · rintro rfl
    have h0 : strconv.digitOf 43 = none := by decide
    rw [h0] at h; cases h
  · rintro rfl
    have h0 : strconv.digitOf 45 = none := by decide
    rw [h0] at h; cases h

/-- `ParseUint` on chosen digits: the loop result is the result. -/
theorem ParseUint_of_chosen (s0 cs : List Nat) (b : Nat) (hb : b = 8 ∨ b = 10 ∨ b = 16)
    (hne : s0 ≠ []) (hchoose : strconv.chooseBase s0 0 = some (b, cs))
    (hdig : ∀ c ∈ cs, strconv.IsDigit b c) (hfit : strconv.valueOf b cs ≤ 2 ^ 32 - 1) :
    strconv.ParseUint s0 0 32 = (strconv.valueOf b cs, none) := by
  unfold strconv.ParseUint
  have h64 : ¬ (32 > 64) := by omega
  have h32 : ¬ (32 = 0) := by omega
  simp only [hne, if_false, hchoose, decide_True, h64, h32]
  rw [parseUintLoop_digits b hb true false cs 0 hdig hfit]
  simp [strconv.valueOf]

/-- Decimal: digits that do not start with `0`. -/
theorem ParseUint_decimal (cs : List Nat) (hne : cs ≠ []) (hhead : cs.head? ≠ some 48)
    (hdig : ∀ c ∈ cs, strconv.IsDigit 10 c) (hfit : strconv.valueOf 10 cs ≤ 2 ^ 32 - 1) :
    strconv.ParseUint cs 0 32 = (strconv.valueOf 10 cs, none) := by
  apply ParseUint_of_chosen cs cs 10 (Or.inr (Or.inl rfl)) hne _ hdig hfit
  unfold strconv.chooseBase
  have hb : ¬ (2 ≤ 0 ∧ 0 ≤ 36) := by omega
  simp only [hb, if_false, if_true, hhead]

/-- Octal: a leading `0` followed by octal digits. -/
theorem ParseUint_octal (os : List Nat) (hdig : ∀ c ∈ os, strconv.IsDigit 8 c)
    (hfit : strconv.valueOf 8 os ≤ 2 ^ 32 - 1) :
    strconv.ParseUint (48 :: os) 0 32 = (strconv.valueOf 8 os, none) := by
  apply ParseUint_of_chosen (48 :: os) os 8 (Or.inl rfl) (by simp) _ hdig hfit
  unfold strconv.chooseBase
  have hb : ¬ (2 ≤ 0 ∧ 0 ≤ 36) := by omega
  simp only [hb, if_false, if_true, List.head?_cons, List.drop_succ_cons, List.drop_zero]
  have hmark : ∀ m, m = 98 ∨ m = 111 ∨ m = 120 →
      ¬ ((48 :: os).length ≥ 3 ∧ strconv.lower ((48 :: os).getD 1 0) = m) := by
    intro m hm ⟨hlen, hl⟩
    cases os with
    | nil => simp at hlen
    | cons c rest =>
      have hc := isDigit_small 8 c (by omega) (hdig c (List.mem_cons_self _ _))
      simp only [List.getD_cons_succ, List.getD_cons_zero] at hl
      rw [hc.2.2.1] at hl
      omega
  simp only [hmark 98 (Or.inl rfl), hmark 111 (Or.inr (Or.inl rfl)),
    hmark 120 (Or.inr (Or.inr rfl)), if_false]

/-- Hexadecimal: the marker `0x` or `0X` followed by at least one hexadecimal digit. -/
theorem ParseUint_hex (x : Nat) (hs : List Nat) (hx : strconv.lower x = 120) (hne : hs ≠ [])
    (hdig : ∀ c ∈ hs, strconv.IsDigit 16 c) (hfit : strconv.valueOf 16 hs ≤ 2 ^ 32 - 1) :
    strconv.ParseUint (48 :: x :: hs) 0 32 = (strconv.valueOf 16 hs, none) := by
  apply ParseUint_of_chosen (48 :: x :: hs) hs 16 (Or.inr (Or.inr rfl)) (by simp) _ hdig hfit
  unfold strconv.chooseBase
  have hb : ¬ (2 ≤ 0 ∧ 0 ≤ 36) := by omega
  have hlen : (48 :: x :: hs).length ≥ 3 := by
    cases hs with
    | nil => exact absurd rfl hne
    | cons c rest => simp
  simp only [hb, if_false, if_true, List.head?_cons, hlen, true_and, List.getD_cons_succ,
    List.getD_cons_zero, hx, List.drop_succ_cons, List.drop_zero]
  simp

/-- The signs in front of an unsigned literal that `ParseUint` accepts. -/
theorem ParseIntBytes_signed (body : List Nat) (un : Nat) (c0 : Nat) (rest : List Nat)
    (hbody : body = c0 :: rest) (h43 : c0 ≠ 43) (h45 : c0 ≠ 45)
    (hu : strconv.ParseUint body 0 32 = (un, none)) :
    (un < 2 ^ 31 → strconv.ParseIntBytes body 0 32 = ((un : Int), none)) ∧
    (un < 2 ^ 31 → strconv.ParseIntBytes (43 :: body) 0 32 = ((un : Int), none)) ∧
    (un ≤ 2 ^ 31 → strconv.ParseIntBytes (45 :: body) 0 32 = (-(un : Int), none)) := by
  refine ⟨?_, ?_, ?_⟩
  · intro hlt
    unfold strconv.ParseIntBytes
    subst hbody
    have hge : ¬ (un ≥ 2 ^ 31) := by omega
    simp only [reduceCtorEq, if_false, List.head?_cons, Option.some.injEq, h43, h45, or_self,
      hu, Option.isSome_none, Bool.false_eq_true, false_and, decide_False, OfNat.ofNat_ne_zero,
      Nat.reduceSub, not_false_eq_true, true_and, hge]
  · intro hlt
    unfold strconv.ParseIntBytes
    have hge : ¬ (un ≥ 2 ^ 31) := by omega
    have hd : ¬ ((43 : Nat) = 45) := by omega
    simp only [reduceCtorEq, if_false, List.head?_cons, Option.some.injEq, true_or, if_true,
      List.tail_cons, hu, Option.isSome_none, Bool.false_eq_true, false_and, hd, decide_False,
      OfNat.ofNat_ne_zero, Nat.reduceSub, not_false_eq_true, true_and, hge]
  · intro hle
    unfold strconv.ParseIntBytes
    have hgt : ¬ (un > 2 ^ 31) := by omega
    simp only [reduceCtorEq, if_false, List.head?_cons, or_true, if_true,
      List.tail_cons, hu, Option.isSome_none, Bool.false_eq_true, false_and, decide_True,
      OfNat.ofNat_ne_zero, Nat.reduceSub, not_true_eq_false, true_and, hgt]

/-- A character with the code point of `0` is `0`. -/
theorem char_of_toNat (c : Char) (n : Nat) (h : c.toNat = n) : c = Char.ofNat n := by
  rw [← h, Char.ofNat_toNat]

/-- With no port named by the annotation, `podPort` on a signed literal whose unsigned part
`ParseUint` accepts returns the signed value, when it is a signed 32-bit integer. -/
theorem podPort_of_unsigned (pod : Pod) (spec : PodSpec) (host : Bool)
    (hspec : pod.Spec = some spec) (sign body : List Char)
    (hsign : sign = [] ∨ sign = ['+'] ∨ sign = ['-'])
    (hno : ∀ q ∈ declaredPorts pod, q.GetName ≠ String.mk (sign ++ body))
    (un c0 : Nat) (rest : List Nat) (hbody : body.map Char.toNat = c0 :: rest)
    (h43 : c0 ≠ 43) (h45 : c0 ≠ 45)
    (hu : strconv.ParseUint (body.map Char.toNat) 0 32 = (un, none))
    (hfit : FitsInt32 (signedValue sign un)) :
    podPort pod (String.mk (sign ++ body)) host = .returned (signedValue sign un, none) := by
  have hnq : ∀ q ∈ declaredPorts pod, ¬ Qualifies (String.mk (sign ++ body)) host q :=
    fun q hq hc => hno q hq hc.1
  rw [podPort_none_qualifying hspec hnq]
  obtain ⟨h1, h2, h3⟩ := ParseIntBytes_signed (body.map Char.toNat) un c0 rest hbody h43 h45 hu
  have hparse : strconv.ParseInt (String.mk (sign ++ body)) 0 32 =
      (signedValue sign un, none) := by
    unfold strconv.ParseInt signedValue
    unfold FitsInt32 signedValue at hfit
    rcases hsign with rfl | rfl | rfl
    · simp only [List.nil_append, reduceCtorEq, if_false] at hfit ⊢
      exact h1 (by omega)
    · have hne : ¬ (['+'] = ['-']) := by decide
      simp only [hne, if_false] at hfit ⊢
      exact h2 (by omega)
    · simp only [if_true] at hfit ⊢
      exact h3 (by omega)
  rw [hparse]
  simp only [int32_ParseInt _ _ hparse]

end k8s

/-! ## The claims -/

namespace k8s

/-- C1: for every pod list and every options map with an empty or valid `host_network` value,
the list `PodAddrs` returns is the list of the addresses of exactly the pods that pass all
four gates (phase, readiness, IP, port), one per surviving pod and in input order; the only
runs that return no list are those in which a pod that reaches `podPort` has no spec. -/
theorem PodAddrs_survivors_in_order (pods : PodList) (args : GoMap) (hostNetwork : Bool)
    (l : Logger) (hm : HostNetworkMode args hostNetwork) :
    (PodAddrs pods args l).1 =
      if ∃ pod ∈ pods.Items, ReadsAbsentSpec hostNetwork pod then .fault
      else .returned
        ((pods.Items.filter (fun pod => PassesGates hostNetwork pod)).map
          (addressOf hostNetwork), none) :=
  PodAddrs_fst hm pods.Items l

theorem PodAddrs_survivors_in_order_witness :
    HostNetworkMode [] false ∧
      (PodAddrs ⟨readyPods⟩ [] []).1 = .returned (["ready", "scheduled"], none) :=
  ⟨Or.inl ⟨rfl, rfl⟩,
    (PodAddrs_survivors_in_order ⟨readyPods⟩ [] false [] (Or.inl ⟨rfl, rfl⟩)).trans
      (by decide)⟩

/-- C2: a pod whose phase is not exactly "Running" (an absent status or an absent phase reads
as the empty phase) never contributes an address, whatever its other fields and whatever the
options: removing all such pods from the input leaves the result of `PodAddrs` unchanged. -/
theorem PodAddrs_ignores_non_running (pods : PodList) (args : GoMap) (l : Logger) :
    (PodAddrs ⟨pods.Items.filter
        (fun pod => PodStatus.GetPhase pod.Status = "Running")⟩ args l).1 =
      (PodAddrs pods args l).1 := by
  rcases mode_or_error args with ⟨hostNetwork, hm⟩ | ⟨e, he⟩
  · rw [PodAddrs_fst hm, PodAddrs_fst hm]
    have hex : (∃ pod ∈ pods.Items.filter
          (fun pod => PodStatus.GetPhase pod.Status = "Running"),
          ReadsAbsentSpec hostNetwork pod) ↔
        (∃ pod ∈ pods.Items, ReadsAbsentSpec hostNetwork pod) := by
      constructor
      · rintro ⟨pod, hp, hr⟩
        exact ⟨pod, (List.mem_filter.1 hp).1, hr⟩
      · rintro ⟨pod, hp, hr⟩
        exact ⟨pod, List.mem_filter.2 ⟨hp, by simpa using readsAbsentSpec_running hr⟩, hr⟩
    have hfl : (pods.Items.filter
          (fun pod => PodStatus.GetPhase pod.Status = "Running")).filter
          (fun pod => PassesGates hostNetwork pod) =
        pods.Items.filter (fun pod => PassesGates hostNetwork pod) := by
      rw [List.filter_filter]
      apply List.filter_congr
      intro pod _
      by_cases hg : PassesGates hostNetwork pod
      · simp [hg, passesGates_running hg]
      · simp [hg]
    rw [hfl]
    by_cases hx : ∃ pod ∈ pods.Items, ReadsAbsentSpec hostNetwork pod
    · rw [if_pos (hex.2 hx), if_pos hx]
    · rw [if_neg (fun h => hx (hex.1 h)), if_neg hx]
  · rw [he, he]

/-- C3: for a Running pod whose selected IP is not empty and which has no port annotation,
under a valid `host_network` value: the pod is excluded when it has a condition of type "Ready"
whose status is not exactly "True"; it is included, with its selected IP as address, when it
has no condition of type "Ready"; and dropping every condition of another type from the pod
changes nothing of what `PodAddrs` returns or logs. -/
theorem ready_condition_gate (args : GoMap) (hostNetwork : Bool)
    (hm : HostNetworkMode args hostNetwork) (pod : Pod)
    (hrun : PodStatus.GetPhase pod.Status = "Running")
    (hip : selectedIP hostNetwork pod ≠ "") (hann : annotatedPort pod = "") :
    ((∃ c ∈ conditionsOf pod, c.GetType = "Ready" ∧ c.GetStatus ≠ "True") →
        Excluded args pod) ∧
    ((∀ c ∈ conditionsOf pod, c.GetType ≠ "Ready") →
        IncludedAs args pod (selectedIP hostNetwork pod)) ∧
    (∀ status, pod.Status = some status →
      ∀ (before after : List Pod) (l : Logger),
        PodAddrs ⟨before ++ { pod with Status := some { status with
            Conditions := status.Conditions.filter (fun c => c.GetType = "Ready") } } :: after⟩
          args l = PodAddrs ⟨before ++ pod :: after⟩ args l) := by
  have hp : PhaseGate pod := hrun
  have hi : IPGate hostNetwork pod := hip
  refine ⟨?_, ?_, ?_⟩
  · rintro ⟨c, hc, h1, h2⟩
    have hr : ¬ ReadinessGate pod := fun hr => h2 (hr c hc h1)
    have hb := PodLoopBody_eq hostNetwork pod
    simp only [hp, hr, not_true_eq_false, not_false_eq_true, if_true, if_false] at hb
    exact excluded_of_skip hm hb
  · intro hno
    have hr : ReadinessGate pod := fun c hc h1 => absurd h1 (hno c hc)
    have hb := PodLoopBody_eq hostNetwork pod
    simp only [hp, hr, hi, hann, not_true_eq_false, if_true, if_false] at hb
    exact includedAs_of_emit hm hb
  · intro status hs before after l
    rw [PodAddrs_of_mode hm, PodAddrs_of_mode hm]
    have := PodLoop_congr hostNetwork
      (before ++ { pod with Status := some { status with
            Conditions := status.Conditions.filter (fun c => c.GetType = "Ready") } } :: after)
      (before ++ pod :: after)
      (by simp [PodLoopBody_ready_conditions_only hostNetwork pod status hs]) [] l
    simp only [this]

theorem ready_condition_gate_witness :
    HostNetworkMode [] false ∧
      PodStatus.GetPhase scheduledPod.Status = "Running" ∧
      selectedIP false scheduledPod ≠ "" ∧ annotatedPort scheduledPod = "" ∧
      (∀ c ∈ conditionsOf scheduledPod, c.GetType ≠ "Ready") ∧
      IncludedAs [] scheduledPod "scheduled" ∧
      (∃ c ∈ conditionsOf notReadyPod, c.GetType = "Ready" ∧ c.GetStatus ≠ "True") ∧
      Excluded [] notReadyPod :=
  ⟨Or.inl ⟨rfl, rfl⟩, by decide, by decide, by decide, by decide,
    (ready_condition_gate [] false (Or.inl ⟨rfl, rfl⟩) scheduledPod (by decide) (by decide)
      (by decide)).2.1 (by decide),
    by decide,
    (ready_condition_gate [] false (Or.inl ⟨rfl, rfl⟩) notReadyPod (by decide) (by decide)
      (by decide)).1 (by decide)⟩

/-- C4: for a Running pod with no un-ready "Ready" condition, under a valid `host_network`
value: the selected field is `podIP` when host network is unset or false and `hostIP` when it
is true; if the selected field is empty the pod is excluded, whatever the other field holds;
and every address the pod is included with is the selected field, not empty, alone or
followed by `:` and a port. -/
theorem selected_ip_is_host (args : GoMap) (hostNetwork : Bool)
    (hm : HostNetworkMode args hostNetwork) (pod : Pod)
    (hrun : PodStatus.GetPhase pod.Status = "Running")
    (hready : ∀ c ∈ conditionsOf pod, c.GetType = "Ready" → c.GetStatus = "True") :
    ((if hostNetwork then PodStatus.GetHostIP pod.Status
        else PodStatus.GetPodIP pod.Status) = "" → Excluded args pod) ∧
    (∀ addr, IncludedAs args pod addr →
      (if hostNetwork then PodStatus.GetHostIP pod.Status
        else PodStatus.GetPodIP pod.Status) ≠ "" ∧
      (addr = (if hostNetwork then PodStatus.GetHostIP pod.Status
          else PodStatus.GetPodIP pod.Status) ∨
        ∃ port : Int, addr = (if hostNetwork then PodStatus.GetHostIP pod.Status
          else PodStatus.GetPodIP pod.Status) ++ ":" ++ strconv.FormatInt port)) := by
  have hp : PhaseGate pod := hrun
  have hr : ReadinessGate pod := hready
  refine ⟨?_, ?_⟩
  · intro he
    have hi : ¬ IPGate hostNetwork pod := fun hi => hi he
    have hb := PodLoopBody_eq hostNetwork pod
    simp only [hp, hr, hi, not_true_eq_false, not_false_eq_true, if_true, if_false] at hb
    exact excluded_of_skip hm hb
  · intro addr hinc
    obtain ⟨hg, ha⟩ := (PodLoopBody_emit_iff hostNetwork pod addr).1 (emit_of_includedAs hm hinc)
    refine ⟨hg.2.2.1, ?_⟩
    rw [ha]
    unfold addressOf
    by_cases hann : annotatedPort pod = ""
    · left; simp [hann, selectedIP]
    · right
      rcases hg.2.2.2 with h | ⟨port, hport⟩
      · exact absurd h hann
      · exact ⟨port, by simp [hann, hport, selectedIP]⟩

theorem selected_ip_is_host_witness :
    HostNetworkMode hostNetworkArgs true ∧
      PodStatus.GetPhase simplePod.Status = "Running" ∧
      (∀ c ∈ conditionsOf simplePod, c.GetType = "Ready" → c.GetStatus = "True") ∧
      IncludedAs hostNetworkArgs simplePod "2.3.4.5" ∧
      (PodStatus.GetHostIP simplePod.Status ≠ "" ∧
        ("2.3.4.5" = PodStatus.GetHostIP simplePod.Status ∨
          ∃ port : Int, "2.3.4.5" =
            PodStatus.GetHostIP simplePod.Status ++ ":" ++ strconv.FormatInt port)) ∧
      PodStatus.GetPodIP readyPod.Status ≠ "" ∧ Excluded hostNetworkArgs readyPod :=
  have hm : HostNetworkMode hostNetworkArgs true := Or.inr ⟨by decide, by decide⟩
  have hinc : IncludedAs hostNetworkArgs simplePod "2.3.4.5" :=
    includedAs_of_emit hm (by decide)
  ⟨hm, by decide, by decide, hinc,
    (selected_ip_is_host hostNetworkArgs true hm simplePod (by decide) (by decide)).2
      "2.3.4.5" hinc,
    by decide,
    (selected_ip_is_host hostNetworkArgs true hm readyPod (by decide) (by decide)).1
      (by decide)⟩

/-- C5: for a pod that `PodAddrs` includes in its output with address `addr`, under a valid
`host_network` value: `addr` is exactly the selected IP when the pod has no metadata, no
annotations, no entry for the key `hashicorp.com/consul-auto-join-port`, or an empty value
for it; otherwise `podPort` resolves the value without error and `addr` is the selected IP
followed by `:` and the decimal rendering of the resolved port.  So `addr` differs from the
selected IP exactly when the annotation is present and not empty. -/
theorem port_suffix_iff_resolved (args : GoMap) (hostNetwork : Bool)
    (hm : HostNetworkMode args hostNetwork) (pod : Pod) (addr : String)
    (hinc : IncludedAs args pod addr) :
    (pod.Metadata = none → addr = selectedIP hostNetwork pod) ∧
    (∀ md, pod.Metadata = some md → md.Annotations = none →
      addr = selectedIP hostNetwork pod) ∧
    (∀ md m, pod.Metadata = some md → md.Annotations = some m →
      m.lookup AnnotationKeyPort = none → addr = selectedIP hostNetwork pod) ∧
    (∀ md m, pod.Metadata = some md → md.Annotations = some m →
      m.lookup AnnotationKeyPort = some "" → addr = selectedIP hostNetwork pod) ∧
    (∀ md m v, pod.Metadata = some md → md.Annotations = some m →
      m.lookup AnnotationKeyPort = some v → v ≠ "" →
      ∃ port, podPort pod v hostNetwork = .returned (port, none) ∧
        addr = selectedIP hostNetwork pod ++ ":" ++ strconv.FormatInt port) ∧
    (addr ≠ selectedIP hostNetwork pod ↔
      annotatedPort pod ≠ "" ∧
        ∃ port, podPort pod (annotatedPort pod) hostNetwork = .returned (port, none)) := by
  obtain ⟨hg, ha⟩ := (PodLoopBody_emit_iff hostNetwork pod addr).1 (emit_of_includedAs hm hinc)
  have hempty : annotatedPort pod = "" → addr = selectedIP hostNetwork pod := by
    intro h; rw [ha]; unfold addressOf; simp [h]
  have hfull : annotatedPort pod ≠ "" →
      ∃ port, podPort pod (annotatedPort pod) hostNetwork = .returned (port, none) ∧
        addr = selectedIP hostNetwork pod ++ ":" ++ strconv.FormatInt port := by
    intro h
    rcases hg.2.2.2 with h' | ⟨port, hport⟩
    · exact absurd h' h
    · exact ⟨port, hport, by rw [ha]; unfold addressOf; simp [h, hport]⟩
  refine ⟨?_, ?_, ?_, ?_, ?_, ?_⟩
  · intro h; exact hempty (by unfold annotatedPort; simp [h])
  · intro md h1 h2; exact hempty (by unfold annotatedPort; simp [h1, h2])
  · intro md m h1 h2 h3; exact hempty (by rw [annotatedPort_eq pod md m h1 h2, h3]; rfl)
  · intro md m h1 h2 h3; exact hempty (by rw [annotatedPort_eq pod md m h1 h2, h3]; rfl)
  · intro md m v h1 h2 h3 hv
    have hav : annotatedPort pod = v := by rw [annotatedPort_eq pod md m h1 h2, h3]; rfl
    have := hfull (by rw [hav]; exact hv)
    rw [hav] at this
    exact this
  · constructor
    · intro hne
      by_cases h : annotatedPort pod = ""
      · exact absurd (hempty h) hne
      · obtain ⟨port, hport, _⟩ := hfull h
        exact ⟨h, port, hport⟩
    · rintro ⟨h, _⟩
      obtain ⟨port, _, hport⟩ := hfull h
      rw [hport]
      exact append_colon_ne _ _

theorem port_suffix_iff_resolved_witness :
    HostNetworkMode [] false ∧ IncludedAs [] namedPortPod "1.2.3.4:8500" ∧
      ∃ port, podPort namedPortPod "my-port" false = .returned (port, none) ∧
        "1.2.3.4:8500" = selectedIP false namedPortPod ++ ":" ++ strconv.FormatInt port :=
  have hm : HostNetworkMode [] false := Or.inl ⟨rfl, rfl⟩
  have hinc : IncludedAs [] namedPortPod "1.2.3.4:8500" := includedAs_of_emit hm (by decide)
  ⟨hm, hinc,
    (port_suffix_iff_resolved [] false hm namedPortPod "1.2.3.4:8500" hinc).2.2.2.2.1
      { Annotations := some [(AnnotationKeyPort, "my-port")] }
      [(AnnotationKeyPort, "my-port")] "my-port" rfl rfl (by decide) (by decide)⟩

/-- C6, as stated, fails: under host network the pod `numericNamePod` declares a port whose
name is the annotation value "80", yet `podPort` returns neither that port's `hostPort` nor
the value of any port of that name, but 80, the numeric reading of the annotation. -/
theorem named_port_priority_counterexample :
    (∃ p ∈ declaredPorts numericNamePod, p.GetName = "80") ∧
      (∀ p ∈ declaredPorts numericNamePod, p.GetName = "80" →
        podPort numericNamePod "80" true ≠ .returned (p.GetHostPort, none)) ∧
      strconv.ParseInt "80" 0 32 = (80, none) ∧
      podPort numericNamePod "80" true = .returned (80, none) := by
  decide

/-- C6, amended: for every pod, annotation value and mode, when the annotation value is the
name of a declared port that qualifies (under host network: one whose `hostPort` is not
zero), `podPort` returns without error the value of such a port (`containerPort`, or
`hostPort` under host network), whatever the numeric reading of the annotation is. -/
theorem named_port_priority (pod : Pod) ( annotation : String) (host : Bool)
    (hex : ∃ p ∈ declaredPorts pod,
      p.GetName = annotation ∧ (host = true → p.GetHostPort ≠ 0)) :
    ∃ p ∈ declaredPorts pod,
      p.GetName = annotation ∧ (host = true → p.GetHostPort ≠ 0) ∧
      podPort pod annotation host =
        .returned ((if host then p.GetHostPort else p.GetContainerPort), none) := by
  obtain ⟨pre, p, post, hd, hpre, hp⟩ :=
    exists_first (fun p => Qualifies annotation host p) (declaredPorts pod) hex
  refine ⟨p, by rw [hd]; simp, hp.1, hp.2, ?_⟩
  exact podPort_first_qualifying hd hpre hp

theorem named_port_priority_witness :
    (∃ p ∈ declaredPorts numericNamePod,
        p.GetName = "80" ∧ (false = true → p.GetHostPort ≠ 0)) ∧
      (∃ p ∈ declaredPorts numericNamePod,
        p.GetName = "80" ∧ (false = true → p.GetHostPort ≠ 0) ∧
        podPort numericNamePod "80" false =
          .returned ((if false then p.GetHostPort else p.GetContainerPort), none)) ∧
      strconv.ParseInt "80" 0 32 = (80, none) ∧
      podPort numericNamePod "80" false = .returned (8080, none) :=
  ⟨by decide, named_port_priority numericNamePod "80" false (by decide), by decide, by decide⟩

/-- C7: with host network false, for every pod and annotation value that is the name of at
least one declared port, `podPort` succeeds and returns the `containerPort` of the first port
of that name in declaration order (containers in order, ports in order within a container),
whatever its `hostPort` and whatever ports of the same name follow. -/
theorem first_named_containerPort (pod : Pod) ( annotation : String)
    (hex : ∃ p ∈ declaredPorts pod, p.GetName = annotation) :
    ∃ pre p post, declaredPorts pod = pre ++ p :: post ∧
      (∀ q ∈ pre, q.GetName ≠ annotation) ∧ p.GetName = annotation ∧
      podPort pod annotation false = .returned (p.GetContainerPort, none) := by
  obtain ⟨pre, p, post, hd, hpre, hp⟩ :=
    exists_first (fun p => p.GetName = annotation) (declaredPorts pod) hex
  refine ⟨pre, p, post, hd, hpre, hp, ?_⟩
  have := @podPort_first_qualifying pod annotation false pre post p hd
    (fun q hq h => hpre q hq h.1) ⟨hp, fun h => by cases h⟩
  simpa [portValue] using this

theorem first_named_containerPort_witness :
    (∃ p ∈ declaredPorts twoWebPortsPod, p.GetName = "web") ∧
      (∃ pre p post, declaredPorts twoWebPortsPod = pre ++ p :: post ∧
        (∀ q ∈ pre, q.GetName ≠ "web") ∧ p.GetName = "web" ∧
        podPort twoWebPortsPod "web" false = .returned (p.GetContainerPort, none)) ∧
      podPort twoWebPortsPod "web" false = .returned (8500, none) :=
  ⟨by decide, first_named_containerPort twoWebPortsPod "web" (by decide), by decide⟩

/-- C8: with host network true, for every pod and annotation value: `podPort` returns the
`hostPort` of the first declared port, in declaration order across all containers, whose name
is the annotation value and whose `hostPort` is not zero, whatever name-matching ports with
`hostPort` 0 come before it; and when no port qualifies and the annotation value does not
parse as an integer, a pod carrying that value as its port annotation never has an address
emitted for it, and is skipped like any excluded pod whenever it has a spec. -/
theorem first_hostPort_under_host_network (args : GoMap) (hm : HostNetworkMode args true)
    (pod : Pod) ( annotation : String) :
    (∀ pre p post, declaredPorts pod = pre ++ p :: post →
      (∀ q ∈ pre, ¬ (q.GetName = annotation ∧ q.GetHostPort ≠ 0)) →
      p.GetName = annotation → p.GetHostPort ≠ 0 →
      podPort pod annotation true = .returned (p.GetHostPort, none)) ∧
    ((∀ q ∈ declaredPorts pod, ¬ (q.GetName = annotation ∧ q.GetHostPort ≠ 0)) →
      (strconv.ParseInt annotation 0 32).2 ≠ none →
      annotation ≠ "" → annotatedPort pod = annotation →
      (pod.Spec ≠ none → Excluded args pod) ∧ ∀ addr, ¬ IncludedAs args pod addr) := by
  refine ⟨?_, ?_⟩
  · intro pre p post hd hpre hname hport
    have := @podPort_first_qualifying pod annotation true pre post p hd
      (fun q hq h => hpre q hq ⟨h.1, h.2 rfl⟩) ⟨hname, fun _ => hport⟩
    simpa [portValue] using this
  · intro hno herr hne hann
    have hnot : ∀ addr, PodLoopBody true pod ≠ .emit addr := by
      intro addr hb
      obtain ⟨hg, _⟩ := (PodLoopBody_emit_iff true pod addr).1 hb
      rcases hg.2.2.2 with h | ⟨port, hport⟩
      · exact hne (hann ▸ h)
      · rw [hann] at hport
        rcases podPort_host_cases pod annotation port hport with
          ⟨pre, p, post, hd, _, hname, hp0, _⟩ | ⟨_, hparse⟩
        · exact hno p (by rw [hd]; simp) ⟨hname, hp0⟩
        · rw [hparse] at herr
          exact herr rfl
    exact ⟨fun hspec => excluded_of_spec_of_not_emit hm hspec hnot,
      not_includedAs_of_not_emit hm hnot⟩

theorem first_hostPort_under_host_network_witness :
    HostNetworkMode hostNetworkArgs true ∧
      podPort twoWebPortsPod "web" true = .returned (1234, none) ∧
      (∀ q ∈ declaredPorts zeroHostPortPod, ¬ (q.GetName = "http" ∧ q.GetHostPort ≠ 0)) ∧
      (strconv.ParseInt "http" 0 32).2 ≠ none ∧
      annotatedPort zeroHostPortPod = "http" ∧
      Excluded hostNetworkArgs zeroHostPortPod :=
  have hm : HostNetworkMode hostNetworkArgs true := Or.inr ⟨by decide, by decide⟩
  ⟨hm,
    (first_hostPort_under_host_network hostNetworkArgs hm twoWebPortsPod "web").1
      [{ Name := some "admin", HostPort := some 99, ContainerPort_ := some 9900 },
       { Name := some "web", HostPort := some 0, ContainerPort_ := some 8500 }]
      { Name := some "web", HostPort := some 1234, ContainerPort_ := some 9000 } []
      (by decide) (by decide) (by decide) (by decide),
    by decide, by decide, by decide,
    ((first_hostPort_under_host_network hostNetworkArgs hm zeroHostPortPod "http").2
      (by decide) (by decide) (by decide) (by decide)).1 (by decide)⟩

/-- C9, as stated, fails: under host network the pod `zeroLiteralPod` has a declared port
whose name is its port annotation "0" and whose `hostPort` is 0, and `PodAddrs` emits the
address `2.3.4.5:0` for it, through the numeric reading of the annotation. -/
theorem zero_hostPort_never_emitted_counterexample :
    HostNetworkMode hostNetworkArgs true ∧
      annotatedPort zeroLiteralPod ≠ "" ∧
      (∃ p ∈ declaredPorts zeroLiteralPod,
        p.GetName = annotatedPort zeroLiteralPod ∧ p.GetHostPort = 0) ∧
      (PodAddrs ⟨[zeroLiteralPod]⟩ hostNetworkArgs []).1 = .returned (["2.3.4.5:0"], none) :=
  ⟨Or.inr ⟨by decide, by decide⟩, by decide, by decide, by decide⟩

/-- C9, amended: with host network true, for every pod with a port annotation that
`PodAddrs` includes in its output, the emitted address is the `hostIP` followed by `:` and a
port that is either the `hostPort`, not zero, of the first declared port that qualifies, or,
when no port qualifies, the numeric value of the annotation; so the `hostPort` 0 of a
name-matching port is never what is emitted, and the port is 0 only when the annotation
itself reads as the number zero. -/
theorem zero_hostPort_never_emitted (args : GoMap) (hm : HostNetworkMode args true)
    (pod : Pod) (addr : String) (hinc : IncludedAs args pod addr)
    (hann : annotatedPort pod ≠ "") :
    ∃ port : Int,
      addr = PodStatus.GetHostIP pod.Status ++ ":" ++ strconv.FormatInt port ∧
      ((∃ pre p post, declaredPorts pod = pre ++ p :: post ∧
          (∀ q ∈ pre, ¬ (q.GetName = annotatedPort pod ∧ q.GetHostPort ≠ 0)) ∧
          p.GetName = annotatedPort pod ∧ p.GetHostPort ≠ 0 ∧ port = p.GetHostPort) ∨
        ((∀ q ∈ declaredPorts pod, ¬ (q.GetName = annotatedPort pod ∧ q.GetHostPort ≠ 0)) ∧
          strconv.ParseInt (annotatedPort pod) 0 32 = (port, none))) ∧
      (port = 0 → strconv.ParseInt (annotatedPort pod) 0 32 = (0, none)) := by
  obtain ⟨hg, ha⟩ := (PodLoopBody_emit_iff true pod addr).1 (emit_of_includedAs hm hinc)
  rcases hg.2.2.2 with h | ⟨port, hport⟩
  · exact absurd h hann
  · have hcases := podPort_host_cases pod (annotatedPort pod) port hport
    refine ⟨port, ?_, hcases, ?_⟩
    · rw [ha]; unfold addressOf; simp [hann, hport, selectedIP]
    · intro h0
      rcases hcases with ⟨pre, p, post, _, _, _, hp0, hpp⟩ | ⟨_, hparse⟩
      · exact absurd (hpp ▸ h0) hp0
      · rw [hparse, h0]

theorem zero_hostPort_never_emitted_witness :
    HostNetworkMode hostNetworkArgs true ∧
      IncludedAs hostNetworkArgs twoWebPortsPod "2.3.4.5:1234" ∧
      annotatedPort twoWebPortsPod ≠ "" ∧
      ∃ port : Int,
        "2.3.4.5:1234" =
          PodStatus.GetHostIP twoWebPortsPod.Status ++ ":" ++ strconv.FormatInt port ∧
        ((∃ pre p post, declaredPorts twoWebPortsPod = pre ++ p :: post ∧
            (∀ q ∈ pre, ¬ (q.GetName = annotatedPort twoWebPortsPod ∧ q.GetHostPort ≠ 0)) ∧
            p.GetName = annotatedPort twoWebPortsPod ∧ p.GetHostPort ≠ 0 ∧
            port = p.GetHostPort) ∨
          ((∀ q ∈ declaredPorts twoWebPortsPod,
              ¬ (q.GetName = annotatedPort twoWebPortsPod ∧ q.GetHostPort ≠ 0)) ∧
            strconv.ParseInt (annotatedPort twoWebPortsPod) 0 32 = (port, none))) ∧
        (port = 0 → strconv.ParseInt (annotatedPort twoWebPortsPod) 0 32 = (0, none)) :=
  have hm : HostNetworkMode hostNetworkArgs true := Or.inr ⟨by decide, by decide⟩
  have hinc : IncludedAs hostNetworkArgs twoWebPortsPod "2.3.4.5:1234" :=
    includedAs_of_emit hm (by decide)
  ⟨hm, hinc, by decide,
    zero_hostPort_never_emitted hostNetworkArgs hm twoWebPortsPod "2.3.4.5:1234" hinc
      (by decide)⟩

/-- Round trip of a literal port on a pod with a spec.  For every signed 32-bit integer `n`
and every pod with a spec that is Running, has no un-ready "Ready" condition and a non-empty
selected IP,
whose port annotation is the decimal rendering of `n` and none of whose declared ports has
that string as its name, `PodAddrs` emits exactly the selected IP, `:` and the annotation
for that pod, in both modes (`podIP` when host network is false, `hostIP` when true). -/
theorem literal_port_roundtrip (args : GoMap) (hostNetwork : Bool)
    (hm : HostNetworkMode args hostNetwork) (n : Int) (hlo : -2 ^ 31 ≤ n) (hhi : n < 2 ^ 31)
    (pod : Pod) (spec : PodSpec) (hspec : pod.Spec = some spec)
    (hrun : PodStatus.GetPhase pod.Status = "Running")
    (hready : ∀ c ∈ conditionsOf pod, c.GetType = "Ready" → c.GetStatus = "True")
    (hip : (if hostNetwork then PodStatus.GetHostIP pod.Status
      else PodStatus.GetPodIP pod.Status) ≠ "")
    (hann : annotatedPort pod = strconv.FormatInt n)
    (hnone : ∀ c ∈ spec.Containers, ∀ p ∈ c.Ports, p.GetName ≠ strconv.FormatInt n) :
    IncludedAs args pod
      ((if hostNetwork then PodStatus.GetHostIP pod.Status
        else PodStatus.GetPodIP pod.Status) ++ ":" ++ annotatedPort pod) := by
  have hp : PhaseGate pod := hrun
  have hr : ReadinessGate pod := hready
  have hi : IPGate hostNetwork pod := hip
  have hne : annotatedPort pod ≠ "" := by rw [hann]; exact FormatInt_ne_empty n
  have hno : ∀ q ∈ declaredPorts pod, ¬ Qualifies (annotatedPort pod) hostNetwork q := by
    intro q hq hc
    unfold declaredPorts at hq
    rw [hspec] at hq
    simp only [List.mem_flatMap] at hq
    obtain ⟨c, hc1, hc2⟩ := hq
    exact hnone c hc1 q hc2 (hann ▸ hc.1)
  have hport := podPort_none_qualifying hspec hno
  have hparse := ParseInt_FormatInt n hlo hhi
  rw [hann, hparse] at hport
  simp only at hport
  have h32 : int32 n = n := by unfold int32; omega
  rw [h32] at hport
  have hb := PodLoopBody_eq hostNetwork pod
  simp only [hp, hr, hi, hne, not_true_eq_false, if_false] at hb
  rw [hann, hport] at hb
  simp only at hb
  apply includedAs_of_emit hm
  rw [hb, hann]
  rfl

theorem literal_port_roundtrip_witness :
    HostNetworkMode hostNetworkArgs true ∧ strconv.FormatInt 4600 = "4600" ∧
      annotatedPort directPortPod = strconv.FormatInt 4600 ∧
      IncludedAs hostNetworkArgs directPortPod "2.3.4.5:4600" ∧
      IncludedAs [] directPortPod "1.2.3.4:4600" :=
  have hm : HostNetworkMode hostNetworkArgs true := Or.inr ⟨by decide, by decide⟩
  ⟨hm, by decide, by decide,
    literal_port_roundtrip hostNetworkArgs true hm 4600 (by decide) (by decide)
      directPortPod _ rfl (by decide) (by decide) (by decide) (by decide) (by decide),
    literal_port_roundtrip [] false (Or.inl ⟨rfl, rfl⟩) 4600 (by decide) (by decide)
      directPortPod _ rfl (by decide) (by decide) (by decide) (by decide) (by decide)⟩

/-- C10, the failing input: `specLessHostPod` is Running, has no un-ready condition, a `podIP`
and a `hostIP`, its port annotation is the decimal rendering of the signed 32-bit integer
4600 and it declares no port of that name, for it has no spec.  The round trip asks for
`1.2.3.4:4600`, and `2.3.4.5:4600` under host network; in both modes `PodAddrs` stops at the
read of `pod.Spec.Containers` in `podPort` and emits nothing.  The same pod with a spec
(`directPortPod`) gives the two addresses. -/
theorem literal_port_absent_spec :
    ((-2 : Int) ^ 31 ≤ 4600 ∧ (4600 : Int) < 2 ^ 31) ∧
      PodStatus.GetPhase specLessHostPod.Status = "Running" ∧
      (∀ c ∈ conditionsOf specLessHostPod, c.GetType = "Ready" → c.GetStatus = "True") ∧
      PodStatus.GetPodIP specLessHostPod.Status = "1.2.3.4" ∧
      PodStatus.GetHostIP specLessHostPod.Status = "2.3.4.5" ∧
      annotatedPort specLessHostPod = strconv.FormatInt 4600 ∧
      (∀ p ∈ declaredPorts specLessHostPod, p.GetName ≠ strconv.FormatInt 4600) ∧
      specLessHostPod.Spec = none ∧
      HostNetworkMode [] false ∧
      PodAddrs ⟨[specLessHostPod]⟩ [] [] = (.fault, []) ∧
      HostNetworkMode hostNetworkArgs true ∧
      PodAddrs ⟨[specLessHostPod]⟩ hostNetworkArgs [] = (.fault, []) ∧
      (PodAddrs ⟨[directPortPod]⟩ [] []).1 = .returned (["1.2.3.4:4600"], none) ∧
      (PodAddrs ⟨[directPortPod]⟩ hostNetworkArgs []).1 =
        .returned (["2.3.4.5:4600"], none) :=
  ⟨by decide, by decide, by decide, by decide, by decide, by decide, by decide, rfl,
    Or.inl ⟨rfl, rfl⟩, by decide, Or.inr ⟨by decide, by decide⟩, by decide, by decide,
    by decide⟩

/-- An unresolvable port annotation on a pod with a spec.  For every pod with a spec and a
non-empty port annotation for which no declared port qualifies and whose value `ParseInt`
rejects (a syntax error or a range error), under a valid
`host_network` value: the pod is excluded, it is not included under any address (in
particular not as a bare host), and `PodAddrs` still returns without error the addresses of
the pods before and after it. -/
theorem unresolvable_port_excludes (args : GoMap) (hostNetwork : Bool)
    (hm : HostNetworkMode args hostNetwork) (pod : Pod) (spec : PodSpec)
    (hspec : pod.Spec = some spec) (hann : annotatedPort pod ≠ "")
    (hno : ∀ q ∈ declaredPorts pod,
      ¬ (q.GetName = annotatedPort pod ∧ (hostNetwork = true → q.GetHostPort ≠ 0)))
    (herr : (strconv.ParseInt (annotatedPort pod) 0 32).2 ≠ none) :
    Excluded args pod ∧ (∀ addr, ¬ IncludedAs args pod addr) ∧
    (∀ (before after : List Pod) (l : Logger) (as bs : List String),
      (PodAddrs ⟨before⟩ args l).1 = .returned (as, none) →
      (PodAddrs ⟨after⟩ args l).1 = .returned (bs, none) →
      (PodAddrs ⟨before ++ pod :: after⟩ args l).1 = .returned (as ++ bs, none)) := by
  have hnot : ∀ addr, PodLoopBody hostNetwork pod ≠ .emit addr := by
    intro addr hb
    obtain ⟨hg, _⟩ := (PodLoopBody_emit_iff hostNetwork pod addr).1 hb
    rcases hg.2.2.2 with h | ⟨port, hport⟩
    · exact hann h
    · rw [podPort_none_qualifying hspec (fun q hq hc => hno q hq hc)] at hport
      simp only [Exec.returned.injEq, Prod.mk.injEq] at hport
      exact herr hport.2
  have hex : Excluded args pod :=
    excluded_of_spec_of_not_emit hm (by rw [hspec]; simp) hnot
  refine ⟨hex, not_includedAs_of_not_emit hm hnot, ?_⟩
  intro before after l as bs h1 h2
  rw [hex before after l, PodAddrs_fst_append hm before after l l l, h1, h2]

theorem unresolvable_port_excludes_witness :
    HostNetworkMode [] false ∧
      (strconv.ParseInt (annotatedPort unparsablePortPod) 0 32).2 = some .ErrSyntaxKind ∧
      (strconv.ParseInt (annotatedPort outOfRangePortPod) 0 32).2 = some .ErrRangeKind ∧
      Excluded [] unparsablePortPod ∧
      (PodAddrs ⟨[readyPod, outOfRangePortPod, scheduledPod]⟩ [] []).1 =
        .returned (["ready", "scheduled"], none) :=
  have hm : HostNetworkMode [] false := Or.inl ⟨rfl, rfl⟩
  ⟨hm, by decide, by decide,
    (unresolvable_port_excludes [] false hm unparsablePortPod _ rfl (by decide) (by decide)
      (by decide)).1,
    (unresolvable_port_excludes [] false hm outOfRangePortPod _ rfl (by decide) (by decide)
      (by decide)).2.2 [readyPod] [scheduledPod] [] ["ready"] ["scheduled"]
      (by decide) (by decide)⟩

/-- C11, the failing input: `specLessNamedPod` is Running, has no un-ready condition and a
`podIP`, its port annotation "http" is not empty, no declared port qualifies for it (the pod
has no spec) and `ParseInt` rejects it.  The pod should contribute nothing and `PodAddrs`
should still return the address of `readyPod`; instead `PodAddrs` stops at the read of
`pod.Spec.Containers` in `podPort` and returns nothing, wherever the pod stands.  Without the
pod the address of `readyPod` is returned. -/
theorem unresolvable_port_absent_spec :
    HostNetworkMode [] false ∧
      PodStatus.GetPhase specLessNamedPod.Status = "Running" ∧
      (∀ c ∈ conditionsOf specLessNamedPod, c.GetType = "Ready" → c.GetStatus = "True") ∧
      PodStatus.GetPodIP specLessNamedPod.Status = "1.2.3.4" ∧
      annotatedPort specLessNamedPod = "http" ∧
      (∀ q ∈ declaredPorts specLessNamedPod, ¬ (q.GetName = "http")) ∧
      strconv.ParseInt "http" 0 32 = (0, some .ErrSyntaxKind) ∧
      specLessNamedPod.Spec = none ∧
      PodAddrs ⟨[readyPod, specLessNamedPod]⟩ [] [] = (.fault, []) ∧
      PodAddrs ⟨[specLessNamedPod, readyPod]⟩ [] [] = (.fault, []) ∧
      (PodAddrs ⟨[readyPod]⟩ [] []).1 = .returned (["ready"], none) :=
  ⟨Or.inl ⟨rfl, rfl⟩, by decide, by decide, by decide, by decide, by decide, by decide, rfl,
    by decide, by decide, by decide⟩

/-- C12: `PodAddrs` returns an error if and only if `args["host_network"]` is not empty and is
not one of the twelve literals `strconv.ParseBool` accepts; in that case it returns the error
with no address, whatever the pods, and leaves the logger untouched; in every other case a
run that returns has a nil error. -/
theorem error_iff_bad_host_network (pods : PodList) (args : GoMap) (l : Logger) :
    ((∃ addrs e, (PodAddrs pods args l).1 = .returned (addrs, some e)) ↔
      (args.index "host_network" ≠ "" ∧ args.index "host_network" ∉ boolLiterals)) ∧
    ((args.index "host_network" ≠ "" ∧ args.index "host_network" ∉ boolLiterals) →
      PodAddrs pods args l = (.returned ([], some (.hostNetworkNotBool .ErrSyntaxKind)), l)) ∧
    (¬ (args.index "host_network" ≠ "" ∧ args.index "host_network" ∉ boolLiterals) →
      ∀ addrs err, (PodAddrs pods args l).1 = .returned (addrs, err) → err = none) := by
  have hgood : ¬ (args.index "host_network" ≠ "" ∧ args.index "host_network" ∉ boolLiterals) →
      ∀ addrs err, (PodAddrs pods args l).1 = .returned (addrs, err) → err = none := by
    intro hn addrs err h
    have hlit : args.index "host_network" = "" ∨ args.index "host_network" ∈ boolLiterals := by
      by_cases hv : args.index "host_network" = ""
      · exact Or.inl hv
      · exact Or.inr (by_contra fun hm => hn ⟨hv, hm⟩)
    obtain ⟨hostNetwork, hm⟩ := mode_of_literal args hlit
    rw [PodAddrs_fst hm] at h
    split_ifs at h
    simp only [Exec.returned.injEq, Prod.mk.injEq] at h
    exact h.2.symm
  refine ⟨⟨?_, ?_⟩, ?_, hgood⟩
  · rintro ⟨addrs, e, h⟩
    by_contra hn
    have := hgood hn addrs (some e) h
    cases this
  · rintro ⟨hv, hmem⟩
    exact ⟨[], _, by rw [PodAddrs_of_bad_value pods args l hv hmem]⟩
  · rintro ⟨hv, hmem⟩
    exact PodAddrs_of_bad_value pods args l hv hmem

theorem error_iff_bad_host_network_witness :
    (GoMap.index badArgs "host_network" ≠ "" ∧
        GoMap.index badArgs "host_network" ∉ boolLiterals) ∧
      PodAddrs ⟨readyPods⟩ badArgs [] =
        (.returned ([], some (.hostNetworkNotBool .ErrSyntaxKind)), []) ∧
      ¬ (GoMap.index hostNetworkArgs "host_network" ≠ "" ∧
        GoMap.index hostNetworkArgs "host_network" ∉ boolLiterals) ∧
      (PodAddrs ⟨[simplePod]⟩ hostNetworkArgs []).1 = .returned (["2.3.4.5"], none) :=
  ⟨by decide,
    (error_iff_bad_host_network ⟨readyPods⟩ badArgs []).2.1 (by decide),
    by decide,
    by decide⟩

/-- C13, the failing input: `specLessPod` is Running, has a `podIP`, carries the port
annotation "4600" and has no spec; `PodAddrs` does not return on it but stops at the read of
`pod.Spec.Containers` in `podPort`, also when a resolvable pod stands before it. -/
theorem absent_spec_fault :
    HostNetworkMode [] false ∧
      PodStatus.GetPhase specLessPod.Status = "Running" ∧
      PodStatus.GetPodIP specLessPod.Status = "1.2.3.4" ∧
      annotatedPort specLessPod = "4600" ∧ specLessPod.Spec = none ∧
      podPort specLessPod "4600" false = .fault ∧
      PodAddrs ⟨[specLessPod]⟩ [] [] = (.fault, []) ∧
      PodAddrs ⟨[readyPod, specLessPod, scheduledPod]⟩ [] [] = (.fault, []) :=
  ⟨Or.inl ⟨rfl, rfl⟩, by decide, by decide, by decide, rfl, by decide, by decide, by decide⟩

/-- C16: two options maps that agree on the value of `host_network` (both absent or empty, or
equal) give the same run of `PodAddrs` on every pod list: the same addresses, the same error,
the same log; no other key is read. -/
theorem other_keys_ignored (pods : PodList) (args1 args2 : GoMap) (l : Logger)
    (h : args1.index "host_network" = args2.index "host_network") :
    PodAddrs pods args1 l = PodAddrs pods args2 l := by
  unfold PodAddrs
  rw [h]

theorem other_keys_ignored_witness :
    GoMap.index fullArgs "host_network" = GoMap.index hostNetworkArgs "host_network" ∧
      PodAddrs ⟨[simplePod, pendingPod]⟩ fullArgs [] =
        PodAddrs ⟨[simplePod, pendingPod]⟩ hostNetworkArgs [] ∧
      GoMap.index [("provider", "k8s")] "host_network" = GoMap.index [] "host_network" ∧
      PodAddrs ⟨[simplePod]⟩ [("provider", "k8s")] [] = PodAddrs ⟨[simplePod]⟩ [] [] :=
  ⟨by decide, other_keys_ignored ⟨[simplePod, pendingPod]⟩ fullArgs hostNetworkArgs []
      (by decide),
    by decide, other_keys_ignored ⟨[simplePod]⟩ [("provider", "k8s")] [] [] (by decide)⟩

/-- C19: under a valid `host_network` value, `PodAddrs` of the empty list is the empty list;
the result on `xs ++ ys` is the result on `xs` followed by the result on `ys` (and a run
returns on `xs ++ ys` exactly when it returns on both), whatever the logger; and a pod that
is included as `addr` yields `addr` twice when it stands twice in the input. -/
theorem PodAddrs_append (args : GoMap) (hostNetwork : Bool)
    (hm : HostNetworkMode args hostNetwork) :
    (∀ l, (PodAddrs ⟨[]⟩ args l).1 = .returned ([], none)) ∧
    (∀ (xs ys : List Pod) (l l1 l2 : Logger),
      (PodAddrs ⟨xs ++ ys⟩ args l).1 =
        match (PodAddrs ⟨xs⟩ args l1).1, (PodAddrs ⟨ys⟩ args l2).1 with
        | .returned (as, _), .returned (bs, _) => .returned (as ++ bs, none)
        | _, _ => .fault) ∧
    (∀ (pod : Pod) (addr : String), IncludedAs args pod addr →
      ∀ l, (PodAddrs ⟨[pod, pod]⟩ args l).1 = .returned ([addr, addr], none)) := by
  have h0 : ∀ l, (PodAddrs ⟨[]⟩ args l).1 = .returned ([], none) := by
    intro l; rw [PodAddrs_fst hm]; simp
  refine ⟨h0, fun xs ys l l1 l2 => PodAddrs_fst_append hm xs ys l l1 l2, ?_⟩
  intro pod addr hinc l
  have h1 := hinc [] [] l [] [] (h0 l) (h0 l)
  exact hinc [pod] [] l [addr] [] h1 (h0 l)

theorem PodAddrs_append_witness :
    HostNetworkMode [] false ∧ IncludedAs [] simplePod "1.2.3.4" ∧
      (PodAddrs ⟨[simplePod, simplePod]⟩ [] []).1 = .returned (["1.2.3.4", "1.2.3.4"], none) ∧
      (PodAddrs ⟨[pendingPod, readyPod] ++ [notReadyPod, scheduledPod]⟩ [] []).1 =
        .returned (["ready"] ++ ["scheduled"], none) :=
  have hm : HostNetworkMode [] false := Or.inl ⟨rfl, rfl⟩
  have hinc : IncludedAs [] simplePod "1.2.3.4" := includedAs_of_emit hm (by decide)
  ⟨hm, hinc, (PodAddrs_append [] false hm).2.2 simplePod "1.2.3.4" hinc [],
    ((PodAddrs_append [] false hm).2.1 [pendingPod, readyPod] [notReadyPod, scheduledPod]
      [] [] []).trans (by decide)⟩

/-- C15: under a valid `host_network` value, a run of `PodAddrs` that returns has appended to
the logger exactly one record for each pod that fails a gate and none for a pod that passes:
the records are those of the skipped pods in input order, each carries the name of its pod,
and their number plus the number of returned addresses is the number of input pods.  In
every run, returning or not, the records appended are those of the skipped pods among the
pods up to the first one that reaches `podPort` without a spec. -/
theorem one_record_per_skipped_pod (pods : PodList) (args : GoMap) (hostNetwork : Bool)
    (l : Logger) (hm : HostNetworkMode args hostNetwork) :
    (PodAddrs pods args l).2 =
      l ++ ((pods.Items.takeWhile (fun pod => ¬ ReadsAbsentSpec hostNetwork pod)).filter
        (fun pod => ¬ PassesGates hostNetwork pod)).map (diagnosticOf hostNetwork) ∧
    (∀ pod, (diagnosticOf hostNetwork pod).name = ObjectMeta.GetName pod.Metadata) ∧
    (∀ addrs err, (PodAddrs pods args l).1 = .returned (addrs, err) →
      (PodAddrs pods args l).2 =
        l ++ (pods.Items.filter (fun pod => ¬ PassesGates hostNetwork pod)).map
          (diagnosticOf hostNetwork) ∧
      addrs = (pods.Items.filter (fun pod => PassesGates hostNetwork pod)).map
        (addressOf hostNetwork) ∧
      ((pods.Items.filter (fun pod => ¬ PassesGates hostNetwork pod)).map
        (diagnosticOf hostNetwork)).length + addrs.length = pods.Items.length) := by
  refine ⟨PodAddrs_snd hm pods.Items l, diagnosticOf_name hostNetwork, ?_⟩
  intro addrs err h
  have h1 := PodAddrs_fst hm pods.Items l
  have h2 := PodAddrs_snd hm pods.Items l
  change (PodAddrs pods args l).1 = _ at h1
  change (PodAddrs pods args l).2 = _ at h2
  rw [h] at h1
  by_cases hex : ∃ pod ∈ pods.Items, ReadsAbsentSpec hostNetwork pod
  · rw [if_pos hex] at h1; cases h1
  · rw [if_neg hex] at h1
    simp only [Exec.returned.injEq, Prod.mk.injEq] at h1
    have htake : pods.Items.takeWhile (fun pod => ¬ ReadsAbsentSpec hostNetwork pod) =
        pods.Items := by
      rw [List.takeWhile_eq_self_iff]
      intro pod hp
      simpa using fun hr => hex ⟨pod, hp, hr⟩
    rw [htake] at h2
    refine ⟨h2, h1.1, ?_⟩
    rw [h1.1, List.length_map, List.length_map]
    exact length_filter_add_filter_not (fun pod => PassesGates hostNetwork pod) pods.Items

theorem one_record_per_skipped_pod_witness :
    HostNetworkMode [] false ∧
      PodAddrs ⟨[pendingPod, readyPod, unparsablePortPod, notReadyPod, scheduledPod]⟩ [] [] =
        (.returned (["ready", "scheduled"], none),
          [.notRunning "" "Pending", .portError "web-1" .ErrSyntaxKind, .notReady ""]) ∧
      (PodAddrs ⟨[pendingPod, readyPod, unparsablePortPod, notReadyPod, scheduledPod]⟩
          [] []).2 =
        [] ++ ((PodList.Items
            ⟨[pendingPod, readyPod, unparsablePortPod, notReadyPod, scheduledPod]⟩).filter
          (fun pod => ¬ PassesGates false pod)).map (diagnosticOf false) :=
  have hm : HostNetworkMode [] false := Or.inl ⟨rfl, rfl⟩
  ⟨hm, by decide,
    ((one_record_per_skipped_pod
      ⟨[pendingPod, readyPod, unparsablePortPod, notReadyPod, scheduledPod]⟩ [] false [] hm).2.2
      ["ready", "scheduled"] none (by decide)).1⟩

/-- C14, as stated, fails: under host network the pod of the test case "Port annotation
(direct with host network)" is Running and ready, has a `hostIP` and the port annotation
"4600", and no declared port of that name has a nonzero `hostPort`; yet `PodAddrs` does not
ignore it but emits `2.3.4.5:4600`, as the test expects. -/
theorem unexposed_port_ignored_counterexample :
    HostNetworkMode hostNetworkArgs true ∧
      PodStatus.GetPhase directPortPod.Status = "Running" ∧
      (∀ c ∈ conditionsOf directPortPod, c.GetType = "Ready" → c.GetStatus = "True") ∧
      PodStatus.GetHostIP directPortPod.Status ≠ "" ∧
      annotatedPort directPortPod ≠ "" ∧
      (∀ q ∈ declaredPorts directPortPod,
        ¬ (q.GetName = annotatedPort directPortPod ∧ q.GetHostPort ≠ 0)) ∧
      (PodAddrs ⟨[directPortPod]⟩ hostNetworkArgs []).1 =
        .returned (["2.3.4.5:4600"], none) :=
  ⟨Or.inr ⟨by decide, by decide⟩, by decide, by decide, by decide, by decide, by decide,
    by decide⟩

/-- C14, amended: with host network true, for every Running, ready pod with a spec and a
non-empty `hostIP` that carries a non-empty port annotation, if no declared port named by the
annotation has a nonzero `hostPort`: the pod is ignored when the annotation does not parse as
a signed 32-bit integer, and when it parses the pod is emitted as the `hostIP`, `:` and that
integer. -/
theorem unexposed_port_ignored (args : GoMap) (hm : HostNetworkMode args true)
    (pod : Pod) (spec : PodSpec) (hspec : pod.Spec = some spec)
    (hrun : PodStatus.GetPhase pod.Status = "Running")
    (hready : ∀ c ∈ conditionsOf pod, c.GetType = "Ready" → c.GetStatus = "True")
    (hip : PodStatus.GetHostIP pod.Status ≠ "") (hann : annotatedPort pod ≠ "")
    (hno : ∀ q ∈ declaredPorts pod, ¬ (q.GetName = annotatedPort pod ∧ q.GetHostPort ≠ 0)) :
    ((strconv.ParseInt (annotatedPort pod) 0 32).2 ≠ none → Excluded args pod) ∧
    (∀ v, strconv.ParseInt (annotatedPort pod) 0 32 = (v, none) →
      IncludedAs args pod (PodStatus.GetHostIP pod.Status ++ ":" ++ strconv.FormatInt v)) := by
  have hp : PhaseGate pod := hrun
  have hr : ReadinessGate pod := hready
  have hi : IPGate true pod := hip
  have hport := @podPort_none_qualifying pod (annotatedPort pod) true spec hspec
    (fun q hq hc => hno q hq ⟨hc.1, hc.2 rfl⟩)
  have hb := PodLoopBody_eq true pod
  simp only [hp, hr, hi, hann, not_true_eq_false, if_false, hport] at hb
  refine ⟨?_, ?_⟩
  · intro herr
    cases he : (strconv.ParseInt (annotatedPort pod) 0 32).2 with
    | none => exact absurd he herr
    | some e =>
      rw [he] at hb
      exact excluded_of_skip hm hb
  · intro v hv
    have h32 := int32_ParseInt _ _ hv
    rw [hv] at hb
    simp only [h32] at hb
    exact includedAs_of_emit hm hb

theorem unexposed_port_ignored_witness :
    HostNetworkMode hostNetworkArgs true ∧
      annotatedPort zeroHostPortPod = "http" ∧
      (strconv.ParseInt "http" 0 32).2 ≠ none ∧
      Excluded hostNetworkArgs zeroHostPortPod ∧
      strconv.ParseInt (annotatedPort directPortPod) 0 32 = (4600, none) ∧
      IncludedAs hostNetworkArgs directPortPod
        (PodStatus.GetHostIP directPortPod.Status ++ ":" ++ strconv.FormatInt 4600) :=
  have hm : HostNetworkMode hostNetworkArgs true := Or.inr ⟨by decide, by decide⟩
  ⟨hm, by decide, by decide,
    (unexposed_port_ignored hostNetworkArgs hm zeroHostPortPod _ rfl (by decide) (by decide)
      (by decide) (by decide) (by decide)).1 (by decide),
    by decide,
    (unexposed_port_ignored hostNetworkArgs hm directPortPod _ rfl (by decide) (by decide)
      (by decide) (by decide) (by decide)).2 4600 (by decide)⟩

/-- C17, the failing input: the help text tells pods to set the annotation
`hashicorp/consul-auto-join-port`, but that is not the key `PodAddrs` reads
(`AnnotationKeyPort` is `hashicorp.com/consul-auto-join-port`).  The pod `helpKeyPod` sets the
key of the help text to the name of its declared port "my-port" and is emitted as the bare
`1.2.3.4`; the same pod with the annotation under `AnnotationKeyPort` is emitted as
`1.2.3.4:8500`. -/
theorem help_key_not_read :
    (∃ pre post, Help = pre ++ "'hashicorp/consul-auto-join-port'" ++ post) ∧
      AnnotationKeyPort ≠ "hashicorp/consul-auto-join-port" ∧
      AnnotationKeyPort = "hashicorp.com/consul-auto-join-port" ∧
      annotatedPort helpKeyPod = "" ∧
      (PodAddrs ⟨[helpKeyPod]⟩ [] []).1 = .returned (["1.2.3.4"], none) ∧
      (PodAddrs ⟨[namedPortPod]⟩ [] []).1 = .returned (["1.2.3.4:8500"], none) :=
  ⟨⟨"Kubernetes (K8S):\n" ++
      "\n" ++
      "    provider:         \"k8s\"\n" ++
      "    kubeconfig:       Path to the kubeconfig file.\n" ++
      "    namespace:        Namespace to search for pods (defaults to \"default\").\n" ++
      "    label_selector:   Label selector value to filter pods.\n" ++
      "    field_selector:   Field selector value to filter pods.\n" ++
      "    host_network:     \"true\" if pod host IP and ports should be used.\n" ++
      "\n" ++
      "    The kubeconfig file value will be searched in the following locations:\n" ++
      "\n" ++
      "     1. Use path from \"kubeconfig\" option if provided.\n" ++
      "     2. Use path from KUBECONFIG environment variable.\n" ++
      "     3. Use default path of $HOME/.kube/config\n" ++
      "\n" ++
      "    By default, the Pod IP is used to join. The \"host_network\" option may\n" ++
      "    be set to use the Host IP. No port is used by default. Pods may set\n" ++
      "    an annotation ",
      " to a named port or\n" ++
      "    an integer value. If the value matches a named port, that port will\n" ++
      "    be used to join.\n" ++
      "\n" ++
      "    Note that if \"host_network\" is set to true, then only pods that have\n" ++
      "    a HostIP available will be selected. If a port annotation exists, then\n" ++
      "    the port must be exposed via a HostPort as well, otherwise the pod will\n" ++
      "    be ignored.\n",
      by simp [Help]⟩,
    by decide, rfl, by decide, by decide, by decide⟩

/-- C20: the resolved port is not checked against the range of port numbers.  `PodAddrs`
emits `1.2.3.4:-1` for the annotation "-1", `1.2.3.4:70000` for "70000", `1.2.3.4:-5` for a
named port whose `containerPort` is -5, and the two ends of the `int32` range for
"2147483647" and "-2147483648".  The bound that does hold: for every pod whose declared port
numbers are `int32` values, the port of every emitted address with a port lies in the signed
32-bit range. -/
theorem port_range_unchecked :
    (PodAddrs ⟨[literalPod "-1"]⟩ [] []).1 = .returned (["1.2.3.4:-1"], none) ∧
    (PodAddrs ⟨[literalPod "70000"]⟩ [] []).1 = .returned (["1.2.3.4:70000"], none) ∧
    (PodAddrs ⟨[negativeNamedPod]⟩ [] []).1 = .returned (["1.2.3.4:-5"], none) ∧
    (PodAddrs ⟨[literalPod "2147483647"]⟩ [] []).1 =
      .returned (["1.2.3.4:2147483647"], none) ∧
    (PodAddrs ⟨[literalPod "-2147483648"]⟩ [] []).1 =
      .returned (["1.2.3.4:-2147483648"], none) ∧
    (∀ (args : GoMap) (hostNetwork : Bool) (pod : Pod) (addr : String),
      HostNetworkMode args hostNetwork → Int32Ports pod → IncludedAs args pod addr →
      annotatedPort pod ≠ "" →
      ∃ port : Int, addr = selectedIP hostNetwork pod ++ ":" ++ strconv.FormatInt port ∧
        -2 ^ 31 ≤ port ∧ port < 2 ^ 31) := by
  refine ⟨by decide, by decide, by decide, by decide, by decide, ?_⟩
  intro args hostNetwork pod addr hm hwt hinc hann
  obtain ⟨hg, ha⟩ := (PodLoopBody_emit_iff hostNetwork pod addr).1 (emit_of_includedAs hm hinc)
  rcases hg.2.2.2 with h | ⟨port, hport⟩
  · exact absurd h hann
  · refine ⟨port, ?_, podPort_range pod _ hostNetwork port hwt hport⟩
    rw [ha]; unfold addressOf; simp [hann, hport]

theorem port_range_unchecked_witness :
    HostNetworkMode [] false ∧ Int32Ports negativeNamedPod ∧
      IncludedAs [] negativeNamedPod "1.2.3.4:-5" ∧ annotatedPort negativeNamedPod ≠ "" ∧
      ∃ port : Int,
        "1.2.3.4:-5" = selectedIP false negativeNamedPod ++ ":" ++ strconv.FormatInt port ∧
        -2 ^ 31 ≤ port ∧ port < 2 ^ 31 :=
  have hm : HostNetworkMode [] false := Or.inl ⟨rfl, rfl⟩
  have hinc : IncludedAs [] negativeNamedPod "1.2.3.4:-5" := includedAs_of_emit hm (by decide)
  ⟨hm, by decide, hinc, by decide,
    port_range_unchecked.2.2.2.2.2 [] false negativeNamedPod "1.2.3.4:-5" hm (by decide) hinc
      (by decide)⟩

/-- C18, as stated, fails: the annotation "010" consists of decimal digits only, its base-10
value 10 is a signed 32-bit integer and the pod declares no port of that name, yet `podPort`
returns 8, and `PodAddrs` emits `1.2.3.4:8`; the annotation "08" is rejected with a syntax
error and its pod is skipped. -/
theorem base_ten_fallback_counterexample :
    annotatedPort (literalPod "010") = "010" ∧
      (∀ c ∈ "010".data, 48 ≤ c.toNat ∧ c.toNat ≤ 57) ∧
      strconv.valueOf 10 ("010".data.map Char.toNat) = 10 ∧ FitsInt32 10 ∧
      (∀ q ∈ declaredPorts (literalPod "010"), q.GetName ≠ "010") ∧
      podPort (literalPod "010") "010" false = .returned (8, none) ∧
      (PodAddrs ⟨[literalPod "010"]⟩ [] []).1 = .returned (["1.2.3.4:8"], none) ∧
      podPort (literalPod "08") "08" false = .returned (0, some .ErrSyntaxKind) ∧
      (PodAddrs ⟨[literalPod "08"]⟩ [] []).1 = .returned ([], none) := by
  decide

/-- C18, amended: for every pod with a spec that declares no port named by the annotation, and
every annotation made of an optional sign and a body, `podPort` succeeds and returns the
signed value whenever it is a signed 32-bit integer, where the value of the body is in base 10
when the body is a non-empty run of decimal digits that does not start with `0`; in base 8
when the body is `0` followed by octal digits (so "0" is 0 and "010" is 8); and in base 16
when the body is `0x` or `0X` followed by at least one hexadecimal digit. -/
theorem base_ten_fallback (pod : Pod) (spec : PodSpec) (host : Bool)
    (hspec : pod.Spec = some spec) (sign body : List Char)
    (hsign : sign = [] ∨ sign = ['+'] ∨ sign = ['-'])
    (hno : ∀ q ∈ declaredPorts pod, q.GetName ≠ String.mk (sign ++ body)) :
    (body ≠ [] → body.head? ≠ some '0' →
      (∀ c ∈ body, 48 ≤ c.toNat ∧ c.toNat ≤ 57) →
      FitsInt32 (signedValue sign (strconv.valueOf 10 (body.map Char.toNat))) →
      podPort pod (String.mk (sign ++ body)) host =
        .returned (signedValue sign (strconv.valueOf 10 (body.map Char.toNat)), none)) ∧
    (∀ os : List Char, body = '0' :: os →
      (∀ c ∈ os, 48 ≤ c.toNat ∧ c.toNat ≤ 55) →
      FitsInt32 (signedValue sign (strconv.valueOf 8 (os.map Char.toNat))) →
      podPort pod (String.mk (sign ++ body)) host =
        .returned (signedValue sign (strconv.valueOf 8 (os.map Char.toNat)), none)) ∧
    (∀ (x : Char) (hs : List Char), body = '0' :: x :: hs → (x = 'x' ∨ x = 'X') → hs ≠ [] →
      (∀ c ∈ hs, strconv.IsDigit 16 c.toNat) →
      FitsInt32 (signedValue sign (strconv.valueOf 16 (hs.map Char.toNat))) →
      podPort pod (String.mk (sign ++ body)) host =
        .returned (signedValue sign (strconv.valueOf 16 (hs.map Char.toNat)), none)) := by
  have hbound : ∀ un : Nat, FitsInt32 (signedValue sign un) → un ≤ 2 ^ 32 - 1 := by
    intro un hf
    unfold FitsInt32 signedValue at hf
    split_ifs at hf <;> omega
  refine ⟨?_, ?_, ?_⟩
  · intro hne hhead hdig hfit
    cases hb : body with
    | nil => exact absurd hb hne
    | cons c tl =>
      subst hb
      have hdig' : ∀ b ∈ (c :: tl).map Char.toNat, strconv.IsDigit 10 b := by
        intro b hb
        obtain ⟨c', hc', rfl⟩ := List.mem_map.1 hb
        have := hdig c' hc'
        exact isDigit_of_range 10 _ this.1 (by omega) (le_refl _)
      have hc48 : c.toNat ≠ 48 := by
        intro h
        apply hhead
        rw [List.head?_cons, char_of_toNat c 48 h]
      have hd := hdig' c.toNat (by simp)
      obtain ⟨d, hdc, _⟩ := hd
      have hs := digitOf_not_sign _ _ hdc
      have hu := ParseUint_decimal ((c :: tl).map Char.toNat) (by simp)
        (by simpa using hc48) hdig' (hbound _ hfit)
      exact podPort_of_unsigned pod spec host hspec sign (c :: tl) hsign hno _ c.toNat
        (tl.map Char.toNat) (by simp) hs.1 hs.2 hu hfit
  · intro os hb hdig hfit
    subst hb
    have hdig' : ∀ b ∈ os.map Char.toNat, strconv.IsDigit 8 b := by
      intro b hb
      obtain ⟨c', hc', rfl⟩ := List.mem_map.1 hb
      have := hdig c' hc'
      exact isDigit_of_range 8 _ this.1 (by omega) (by omega)
    have hu := ParseUint_octal (os.map Char.toNat) hdig' (hbound _ hfit)
    have h0 : Char.toNat '0' = 48 := rfl
    exact podPort_of_unsigned pod spec host hspec sign ('0' :: os) hsign hno _ 48
      (os.map Char.toNat) (by simp [h0]) (by omega) (by omega)
      (by simpa [h0] using hu) hfit
  · intro x hs hb hx hne hdig hfit
    subst hb
    have hdig' : ∀ b ∈ hs.map Char.toNat, strconv.IsDigit 16 b := by
      intro b hb
      obtain ⟨c', hc', rfl⟩ := List.mem_map.1 hb
      exact hdig c' hc'
    have hlow : strconv.lower x.toNat = 120 := by
      rcases hx with rfl | rfl <;> rfl
    have hu := ParseUint_hex x.toNat (hs.map Char.toNat) hlow (by simpa using hne) hdig'
      (hbound _ hfit)
    have h0 : Char.toNat '0' = 48 := rfl
    exact podPort_of_unsigned pod spec host hspec sign ('0' :: x :: hs) hsign hno _ 48
      (x.toNat :: hs.map Char.toNat) (by simp [h0]) (by omega) (by omega)
      (by simpa [h0] using hu) hfit

theorem base_ten_fallback_witness :
    podPort (literalPod "4600") "4600" false = .returned (4600, none) ∧
      podPort (literalPod "-17") "-17" true = .returned (-17, none) ∧
      podPort (literalPod "010") "010" false = .returned (8, none) ∧
      podPort (literalPod "0x1F") "0x1F" false = .returned (31, none) :=
  ⟨((base_ten_fallback (literalPod "4600") _ false rfl [] "4600".data (Or.inl rfl)
      (by decide)).1 (by decide) (by decide) (by decide) (by decide)).trans (by decide),
    ((base_ten_fallback (literalPod "-17") _ true rfl ['-'] "17".data (Or.inr (Or.inr rfl))
      (by decide)).1 (by decide) (by decide) (by decide) (by decide)).trans (by decide),
    ((base_ten_fallback (literalPod "010") _ false rfl [] "010".data (Or.inl rfl)
      (by decide)).2.1 "10".data rfl (by decide) (by decide)).trans (by decide),
    ((base_ten_fallback (literalPod "0x1F") _ false rfl [] "0x1F".data (Or.inl rfl)
      (by decide)).2.2 'x' "1F".data rfl (Or.inl rfl) (by decide) (by decide)
      (by decide)).trans (by decide)⟩

end k8s
